import Mathlib

/-!
Modbus RTU frame decoder (`esp32_modbus/main/modbus_slave.c`).

A shallow embedding of `modbus_slave.c` and theorems about it.

* A byte (`uint8_t`) is a `Fin 256`; the values of `uint16_t`, `uint32_t`, `size_t` and
  `int` expressions are natural numbers or integers, truncated explicitly where the C
  code stores them into a narrower object.
* The frame buffer is a `List Byte`.  Every read `data[i]` of the C code is the partial
  read `data[i]?`, so a function of the embedding returns `none` exactly when the C code
  would read the buffer at an index outside it.
* `modbus_frame_handler` returns nothing; what it does is increment `frame_counter` and
  call `printf`.  The embedding returns the new counter together with the list of the
  `printf` calls made, one `Out` constructor per call site, carrying the arguments of
  the call.
* A `for` loop is a recursion on the number of iterations that remain.
* `len` is a natural number that fits `size_t` and `int`; the differences `len - 2` and
  `len - 1` are only evaluated where `len >= 4`, so they do not wrap, and the two
  expressions that can wrap (`padding` and the field width of the default branch) go
  through `to_int`.
-/

namespace Modbus

/-- One `uint8_t`. -/
abbrev Byte := Fin 256

/-- The `printf` calls of `modbus_frame_handler`, one constructor per call site (a
format string that occurs at several places is one constructor), with the arguments the
call passes. -/
inductive Out where
  /-- `printf("\n")` -/
  | newline
  /-- the top border of the box -/
  | borderTop
  /-- the separator line of the box -/
  | borderSep
  /-- the bottom border of the box followed by one line break (line 97) -/
  | borderBottom
  /-- the bottom border of the box followed by two line breaks -/
  | borderBottomBlank
  /-- `MODBUS FRAME #%-4lu` with `frame_counter` -/
  | frameNumber (n : Nat)
  /-- `RAW FRAME (%2d bytes):` with `len` -/
  | rawFrameHeader (len : Nat)
  /-- `printf("║ ")` -/
  | rowStart
  /-- `printf("%02X ", data[i])` of the raw frame dump -/
  | rawByte (b : Nat)
  /-- the line break of the raw frame dump after its eighth byte -/
  | rowBreak
  /-- `printf(" ")` of the padding loop -/
  | space
  /-- `printf("║\n")` -/
  | rowEnd
  /-- `ERROR: Frame too short (minimum 4 bytes required)` -/
  | tooShort
  /-- `FRAME ANALYSIS:` -/
  | frameAnalysis
  /-- `Slave ID: 0x%02X (%3d)` -/
  | slaveId (id : Nat)
  /-- `Function Code: 0x%02X (%s)%*s` with the code, its name and the field width -/
  | functionCode (code : Nat) (name : String) (width : Int)
  /-- `CRC Check:` -/
  | crcCheck
  /-- `Received: 0x%04X` -/
  | crcReceived (crc : Nat)
  /-- `Computed: 0x%04X` -/
  | crcComputed (crc : Nat)
  /-- `Status: %s`, `true` for `VALID` and `false` for `INVALID` -/
  | crcStatus (valid : Bool)
  /-- `FRAME REJECTED: CRC Mismatch` -/
  | crcMismatch
  /-- `ADDRESS MATCH: Frame is for this slave` -/
  | addressMatch
  /-- `BROADCAST: Frame is for all slaves` -/
  | broadcast
  /-- `ADDRESS MISMATCH: Frame is for slave 0x%02X (ignored)` -/
  | addressMismatch (id : Nat)
  /-- `FUNCTION DATA:` -/
  | functionData
  /-- `Register Address: 0x%04X (%5d)` -/
  | registerAddress (v : Nat)
  /-- `Register Value: 0x%04X (%5d)` -/
  | registerValue (v : Nat)
  /-- `Interpretation: OFF/DISABLE/FALSE` -/
  | interpretationOff
  /-- `Interpretation: ON/ENABLE/TRUE` -/
  | interpretationOn
  /-- `Interpretation: ALL BITS SET` -/
  | interpretationAllBits
  /-- `Starting Address: 0x%04X (%5d)` of function codes 0x03 and 0x04 -/
  | startingAddress (v : Nat)
  /-- `Number of Regs: 0x%04X (%5d)` -/
  | numberOfRegs (v : Nat)
  /-- `Starting Address: 0x%04X (%5d);` of function codes 0x01 and 0x02 -/
  | coilStartingAddress (v : Nat)
  /-- `Number of Coils: 0x%04X (%5d);` -/
  | numberOfCoils (v : Nat)
  /-- `Coil Address: 0x%04X (%5d)` -/
  | coilAddress (v : Nat)
  /-- `Coil Value: 0x%04X (%s)` with the value and `ON `, `OFF` or `???` -/
  | coilValue (v : Nat) (state : String)
  /-- `Raw Data Bytes:` -/
  | rawDataHeader
  /-- `printf("║   ")` of the default branch -/
  | rawDataRowStart
  /-- `printf("0x%02X ", data[i])` of the default branch -/
  | rawDataByte (b : Nat)
  /-- `printf("...")` -/
  | ellipsis
  /-- `printf("%*s║\n", 40 - ((len - 4) * 5), "")` with the field width -/
  | rawDataRowEnd (width : Int)
  /-- `FRAME PROCESSING: COMPLETE` -/
  | complete
  deriving DecidableEq, Repr

/-- `MODBUS_SLAVE_ID` (line 4). -/
def MODBUS_SLAVE_ID : Nat := 0x01

/-- The value of a 32-bit unsigned expression converted to `int`. -/
def to_int (z : Int) : Int :=
  if z % 4294967296 < 2147483648 then z % 4294967296 else z % 4294967296 - 4294967296

/-- `bytes_to_uint16_t` (lines 9-11), called with the pointer `&data[off]`:
`(data[0] << 8) | data[1]`, returned as `uint16_t`. -/
def bytes_to_uint16_t (data : List Byte) (off : Nat) : Option Nat :=
  match data[off]?, data[off + 1]? with
  | some b0, some b1 => some (((b0.val <<< 8) ||| b1.val) % 65536)
  | _, _ => none

/-- One iteration of the inner loop of `modbus_crc16` (lines 48-53). -/
def crc_bit (crc : Nat) : Nat :=
  if crc &&& 0x0001 ≠ 0 then
    ((crc >>> 1) % 65536 ^^^ 0xA001) % 65536
  else
    (crc >>> 1) % 65536

/-- The inner loop of `modbus_crc16` (line 47), with `n` iterations to go. -/
def crc_bits : Nat → Nat → Nat
  | 0, crc => crc
  | n + 1, crc => crc_bits n (crc_bit crc)

/-- The outer loop of `modbus_crc16` (lines 45-55), at index `i` with `n` iterations to
go (`n = len - i`). -/
def crc_loop (data : List Byte) : Nat → Nat → Nat → Option Nat
  | 0, _, crc => some crc
  | n + 1, i, crc =>
    match data[i]? with
    | none => none
    | some b => crc_loop data n (i + 1) (crc_bits 8 ((crc ^^^ b.val) % 65536))

/-- `modbus_crc16` (lines 43-57). -/
def modbus_crc16 (data : List Byte) (len : Nat) : Option Nat :=
  crc_loop data len 0 0xFFFF

/-- `get_function_name` (lines 59-71). -/
def get_function_name (func_code : Nat) : String :=
  if func_code = 0x01 then "Read Coils"
  else if func_code = 0x02 then "Read Discrete Inputs"
  else if func_code = 0x03 then "Read Holding Registers"
  else if func_code = 0x04 then "Read Input Registers"
  else if func_code = 0x05 then "Write Single Coil"
  else if func_code = 0x06 then "Write Single Register"
  else if func_code = 0x0F then "Write Multiple Coils"
  else if func_code = 0x10 then "Write Multiple Registers"
  else "Unknown Function"

/-- The raw frame loop of `modbus_frame_handler` (lines 84-87), at index `i` with `n`
iterations to go. -/
def raw_frame_loop (data : List Byte) (len : Nat) : Nat → Nat → Option (List Out)
  | 0, _ => some []
  | n + 1, i =>
    match data[i]? with
    | none => none
    | some b =>
      match raw_frame_loop data len n (i + 1) with
      | none => none
      | some rest =>
        some (Out.rawByte b.val :: ((if i = 7 ∧ len > 8 then [Out.rowBreak] else []) ++ rest))

/-- The variable `padding` of `modbus_frame_handler` (lines 89-90): `size_t` arithmetic
converted to `int`. -/
def padding (len : Nat) : Int :=
  if len > 8 then to_int (58 - ((len : Int) - 8) * 3) else to_int (58 - (len : Int) * 3)

/-- The loop of the default branch (lines 199-201), at index `i` with at most `fuel`
iterations to go; the loop starts at `i = 2` and stops at `i = 10` at the latest, so a
fuel of 8 is never used up. -/
def raw_data_loop (data : List Byte) (len : Nat) : Nat → Nat → Option (List Out)
  | 0, _ => some []
  | fuel + 1, i =>
    if i < len - 2 ∧ i < 10 then
      match data[i]? with
      | none => none
      | some b =>
        match raw_data_loop data len fuel (i + 1) with
        | none => none
        | some rest => some (Out.rawDataByte b.val :: rest)
    else some []

/-- The `switch` of `modbus_frame_handler` (lines 147-205): the calls it makes. -/
def function_switch (data : List Byte) (len : Nat) (function_code : Nat) :
    Option (List Out) :=
  if function_code = 0x06 then
    if len ≥ 8 then
      match bytes_to_uint16_t data 2, bytes_to_uint16_t data 4 with
      | some reg_addr, some reg_value =>
        some ([Out.registerAddress reg_addr, Out.registerValue reg_value] ++
          (if reg_value = 0x0000 then [Out.interpretationOff]
           else if reg_value = 0x0001 then [Out.interpretationOn]
           else if reg_value = 0xFFFF then [Out.interpretationAllBits]
           else []))
      | _, _ => none
    else some []
  else if function_code = 0x03 ∨ function_code = 0x04 then
    if len ≥ 8 then
      match bytes_to_uint16_t data 2, bytes_to_uint16_t data 4 with
      | some start_addr, some num_regs =>
        some [Out.startingAddress start_addr, Out.numberOfRegs num_regs]
      | _, _ => none
    else some []
  else if function_code = 0x01 ∨ function_code = 0x02 then
    if len ≥ 8 then
      match bytes_to_uint16_t data 2, bytes_to_uint16_t data 4 with
      | some start_addr, some num_coils =>
        some [Out.coilStartingAddress start_addr, Out.numberOfCoils num_coils]
      | _, _ => none
    else some []
  else if function_code = 0x05 then
    if len ≥ 8 then
      match bytes_to_uint16_t data 2, bytes_to_uint16_t data 4 with
      | some coil_addr, some coil_value =>
        some [Out.coilAddress coil_addr,
          Out.coilValue coil_value
            (if coil_value = 0xFF00 then "ON " else if coil_value = 0x0000 then "OFF"
             else "???")]
      | _, _ => none
    else some []
  else
    match raw_data_loop data len 8 2 with
    | none => none
    | some bytes =>
      some ([Out.rawDataHeader, Out.rawDataRowStart] ++ bytes ++
        (if len > 12 then [Out.ellipsis] else []) ++
        [Out.rawDataRowEnd (to_int (40 - ((len : Int) - 4) * 5))])

/-- Lines 143-209 of `modbus_frame_handler`: the function-specific parsing and the
closing lines, with `out` the calls made so far. -/
def function_parsing (data : List Byte) (len : Nat) (function_code : Nat)
    (out : List Out) : Option (List Out) :=
  match function_switch data len function_code with
  | none => none
  | some fields =>
    some (out ++ [Out.borderSep, Out.functionData] ++ fields ++
      [Out.borderSep, Out.complete, Out.borderBottomBlank])

/-- Lines 130-141 of `modbus_frame_handler` and what follows them: the address check,
with `out` the calls made so far. -/
def address_check (data : List Byte) (len : Nat) (slave_id function_code : Nat)
    (out : List Out) : Option (List Out) :=
  let out := out ++ [Out.borderSep]
  if slave_id = MODBUS_SLAVE_ID then
    function_parsing data len function_code (out ++ [Out.addressMatch])
  else if slave_id = 0x00 then
    function_parsing data len function_code (out ++ [Out.broadcast])
  else
    some (out ++ [Out.addressMismatch slave_id, Out.borderBottomBlank])

/-- Lines 112-128 of `modbus_frame_handler` and what follows them: the CRC validation,
with `out` the calls made so far. -/
def crc_validation (data : List Byte) (len : Nat) (slave_id function_code : Nat)
    (out : List Out) : Option (List Out) :=
  if len ≥ 4 then
    match data[len - 2]?, data[len - 1]? with
    | some lo, some hi =>
      let received_crc := (lo.val ||| (hi.val <<< 8)) % 65536
      match modbus_crc16 data (len - 2) with
      | none => none
      | some computed_crc =>
        let out := out ++ [Out.crcCheck, Out.crcReceived received_crc,
          Out.crcComputed computed_crc, Out.crcStatus (received_crc = computed_crc)]
        if received_crc ≠ computed_crc then
          some (out ++ [Out.borderSep, Out.crcMismatch, Out.borderBottomBlank])
        else
          address_check data len slave_id function_code out
    | _, _ => none
  else
    address_check data len slave_id function_code out

/-- `modbus_frame_handler` (lines 73-210): from the value of `frame_counter` before the
call, the buffer and `len`, the value of `frame_counter` after the call and the `printf`
calls made, or `none` when a read leaves the buffer. -/
def modbus_frame_handler (frame_counter : Nat) (data : List Byte) (len : Nat) :
    Option (Nat × List Out) :=
  let frame_counter := (frame_counter + 1) % 4294967296
  match raw_frame_loop data len len 0 with
  | none => none
  | some dump =>
    let out := [Out.newline, Out.borderTop, Out.frameNumber frame_counter, Out.borderSep,
      Out.rawFrameHeader len, Out.rowStart] ++ dump ++
      List.replicate (padding len).toNat Out.space ++ [Out.rowEnd, Out.borderSep]
    if len < 4 then
      some (frame_counter, out ++ [Out.tooShort, Out.borderBottom])
    else
      match data[0]?, data[1]? with
      | some slave_id, some function_code =>
        let out := out ++ [Out.frameAnalysis, Out.slaveId slave_id.val,
          Out.functionCode function_code.val (get_function_name function_code.val)
            (25 - ((get_function_name function_code.val).length : Int))]
        match crc_validation data len slave_id.val function_code.val out with
        | none => none
        | some out => some (frame_counter, out)
      | _, _ => none

/-! ## The reference CRC-16 of the specification -/

/-- One round of the reference Modbus CRC-16: shift the register right by one bit and
additionally XOR with 0xA001 when the bit shifted out was 1. -/
def reference_round (reg : Nat) : Nat :=
  if reg % 2 = 1 then Nat.xor (reg / 2) 0xA001 else reg / 2

/-- One byte of the reference Modbus CRC-16: XOR the byte into the low byte of the
register (the high byte `reg / 256` is kept), then do exactly 8 rounds. -/
def reference_byte (reg : Nat) (b : Byte) : Nat :=
  reference_round (reference_round (reference_round (reference_round
    (reference_round (reference_round (reference_round (reference_round
      (256 * (reg / 256) + Nat.xor (reg % 256) b.val))))))))

/-- The reference Modbus CRC-16 of a byte sequence: start from the register 0xFFFF and
process the bytes in order; the final register is the result. -/
def reference_crc16 (bytes : List Byte) : Nat :=
  bytes.foldl reference_byte 0xFFFF

/-! ## Building a frame -/

/-- The low byte of a 16-bit value. -/
def lo_byte (x : Nat) : Byte := ⟨x % 256, Nat.mod_lt _ (by norm_num)⟩

/-- The high byte of a 16-bit value. -/
def hi_byte (x : Nat) : Byte := ⟨x / 256 % 256, Nat.mod_lt _ (by norm_num)⟩

/-! ## Observations on the calls made -/

/-- The 16-bit field values that a list of calls reports, in order. -/
def fields : List Out → List Nat
  | [] => []
  | Out.registerAddress v :: rest => v :: fields rest
  | Out.registerValue v :: rest => v :: fields rest
  | Out.startingAddress v :: rest => v :: fields rest
  | Out.numberOfRegs v :: rest => v :: fields rest
  | Out.coilStartingAddress v :: rest => v :: fields rest
  | Out.numberOfCoils v :: rest => v :: fields rest
  | Out.coilAddress v :: rest => v :: fields rest
  | Out.coilValue v _ :: rest => v :: fields rest
  | _ :: rest => fields rest

/-- The calls made after `FUNCTION DATA:` and before the separator line that closes the
function data section; empty when `FUNCTION DATA:` is not printed. -/
def function_section (out : List Out) : List Out :=
  ((out.dropWhile (fun e => decide (e ≠ Out.functionData))).drop 1).takeWhile
    (fun e => decide (e ≠ Out.borderSep))

/-- The calls of lines 76-109: the banner, the raw frame dump and the frame analysis. -/
def Out.isPreamble : Out → Bool
  | .newline | .borderTop | .borderSep | .frameNumber _ | .rawFrameHeader _ | .rowStart
  | .rawByte _ | .rowBreak | .space | .rowEnd | .frameAnalysis | .slaveId _
  | .functionCode _ _ _ => true
  | _ => false

/-- The calls of the CRC validation (lines 116-124). -/
def Out.isCrc : Out → Bool
  | .crcCheck | .crcReceived _ | .crcComputed _ | .crcStatus _ | .crcMismatch => true
  | _ => false

/-- The calls of the address check (lines 134-138). -/
def Out.isAddress : Out → Bool
  | .addressMatch | .broadcast | .addressMismatch _ => true
  | _ => false

/-- The calls of the function-specific parsing (lines 145-203): `FUNCTION DATA:` and
everything the `switch` prints. -/
def Out.isFunction : Out → Bool
  | .functionData | .registerAddress _ | .registerValue _ | .interpretationOff
  | .interpretationOn | .interpretationAllBits | .startingAddress _ | .numberOfRegs _
  | .coilStartingAddress _ | .numberOfCoils _ | .coilAddress _ | .coilValue _ _
  | .rawDataHeader | .rawDataRowStart | .rawDataByte _ | .ellipsis | .rawDataRowEnd _ => true
  | _ => false

/-- The three calls of the frame analysis (lines 105-109). -/
def analysis (slave_id function_code : Nat) : List Out :=
  [Out.frameAnalysis, Out.slaveId slave_id,
    Out.functionCode function_code (get_function_name function_code)
      (25 - ((get_function_name function_code).length : Int))]

/-- The four calls that report the CRC check (lines 116-120). -/
def crc_report (received computed : Nat) : List Out :=
  [Out.crcCheck, Out.crcReceived received, Out.crcComputed computed,
    Out.crcStatus (decide (received = computed))]

/-- The byte values that the raw-byte dump of the default branch prints, in order. -/
def raw_data_bytes : List Out → List Nat
  | [] => []
  | Out.rawDataByte b :: rest => b :: raw_data_bytes rest
  | _ :: rest => raw_data_bytes rest

/-- The byte `b` with bit `k` flipped. -/
def flip_bit (b : Byte) (k : Nat) : Byte :=
  ⟨(b.val ^^^ (1 <<< k)) % 256, Nat.mod_lt _ (by norm_num)⟩

/-! ## The CRC engine -/

theorem crc_bit_lt (crc : Nat) : crc_bit crc < 65536 := by
  unfold crc_bit
  split <;> exact Nat.mod_lt _ (by norm_num)

theorem crc_bits_lt (n crc : Nat) (h : crc < 65536) : crc_bits n crc < 65536 := by
  induction n generalizing crc with
  | zero => simpa [crc_bits] using h
  | succ n ih => exact ih _ (crc_bit_lt crc)

theorem crc_bit_eq_reference (crc : Nat) (h : crc < 65536) :
    crc_bit crc = reference_round crc := by
  have h1 : crc >>> 1 = crc / 2 := by simp [Nat.shiftRight_eq_div_pow]
  have h2 : crc / 2 < 2 ^ 16 := by omega
  have h3 : crc / 2 ^^^ 0xA001 < 2 ^ 16 := Nat.xor_lt_two_pow h2 (by norm_num)
  have h4 : crc / 2 % 65536 = crc / 2 := Nat.mod_eq_of_lt (by omega)
  unfold crc_bit reference_round
  rw [Nat.and_one_is_mod, h1, h4]
  by_cases hb : crc % 2 = 1
  · rw [if_pos (by omega), if_pos hb]
    exact Nat.mod_eq_of_lt (by simpa using h3)
  · rw [if_neg (by omega), if_neg hb]

theorem xor_low_byte (crc b : Nat) (hb : b < 256) :
    crc ^^^ b = 256 * (crc / 256) + ((crc % 256) ^^^ b) := by
  have hb8 : b < 2 ^ 8 := by simpa using hb
  have hlt : (crc % 2 ^ 8) ^^^ b < 2 ^ 8 :=
    Nat.xor_lt_two_pow (Nat.mod_lt _ (by norm_num)) hb8
  have key : crc ^^^ b = 2 ^ 8 * (crc >>> 8) + ((crc % 2 ^ 8) ^^^ b) := by
    apply Nat.eq_of_testBit_eq
    intro i
    rw [Nat.testBit_mul_pow_two_add _ hlt]
    by_cases hi : i < 8
    · rw [if_pos hi, Nat.testBit_xor, Nat.testBit_xor, Nat.testBit_mod_two_pow]
      simp [hi]
    · have hbi : b.testBit i = false :=
        Nat.testBit_lt_two_pow
          (lt_of_lt_of_le hb8 (Nat.pow_le_pow_right (by norm_num) (by omega)))
      have hsub : 8 + (i - 8) = i := by omega
      simp [hi, hbi, hsub]
  rw [Nat.shiftRight_eq_div_pow] at key
  simpa using key

/-- The update of the register by one byte in `modbus_crc16` (lines 46-54). -/
theorem crc_byte_eq_reference (crc : Nat) (b : Byte) (h : crc < 65536) :
    crc_bits 8 ((crc ^^^ b.val) % 65536) = reference_byte crc b := by
  have hx : crc ^^^ b.val < 2 ^ 16 :=
    Nat.xor_lt_two_pow (by simpa using h) (lt_trans b.isLt (by norm_num))
  have hm : (crc ^^^ b.val) % 65536 = 256 * (crc / 256) + Nat.xor (crc % 256) b.val := by
    rw [Nat.mod_eq_of_lt (by simpa using hx)]
    exact xor_low_byte crc b.val b.isLt
  have hlt : 256 * (crc / 256) + Nat.xor (crc % 256) b.val < 65536 := by
    rw [← hm]
    exact Nat.mod_lt _ (by norm_num)
  have step : ∀ r, r < 65536 → crc_bit r = reference_round r ∧ reference_round r < 65536 := by
    intro r hr
    have := crc_bit_eq_reference r hr
    exact ⟨this, this ▸ crc_bit_lt r⟩
  rw [hm]
  unfold reference_byte
  generalize 256 * (crc / 256) + Nat.xor (crc % 256) b.val = r0 at hlt
  simp only [crc_bits]
  obtain ⟨e1, l1⟩ := step r0 hlt
  rw [e1]
  obtain ⟨e2, l2⟩ := step _ l1
  rw [e2]
  obtain ⟨e3, l3⟩ := step _ l2
  rw [e3]
  obtain ⟨e4, l4⟩ := step _ l3
  rw [e4]
  obtain ⟨e5, l5⟩ := step _ l4
  rw [e5]
  obtain ⟨e6, l6⟩ := step _ l5
  rw [e6]
  obtain ⟨e7, l7⟩ := step _ l6
  rw [e7]
  obtain ⟨e8, _⟩ := step _ l7
  rw [e8]

theorem reference_byte_lt (crc : Nat) (b : Byte) (h : crc < 65536) :
    reference_byte crc b < 65536 := by
  rw [← crc_byte_eq_reference crc b h]
  exact crc_bits_lt 8 _ (Nat.mod_lt _ (by norm_num))

theorem reference_foldl_lt (bytes : List Byte) (crc : Nat) (h : crc < 65536) :
    bytes.foldl reference_byte crc < 65536 := by
  induction bytes generalizing crc with
  | nil => simpa using h
  | cons b rest ih => exact ih _ (reference_byte_lt crc b h)

theorem reference_crc16_lt (bytes : List Byte) : reference_crc16 bytes < 65536 :=
  reference_foldl_lt bytes 0xFFFF (by norm_num)

/-- The outer loop of `modbus_crc16` over a buffer that holds the `n` bytes from index
`i` on returns the reference register after those bytes. -/
theorem crc_loop_eq (data : List Byte) (n i crc : Nat) (hn : i + n ≤ data.length)
    (h : crc < 65536) :
    crc_loop data n i crc = some (((data.drop i).take n).foldl reference_byte crc) := by
  induction n generalizing i crc with
  | zero => simp [crc_loop]
  | succ n ih =>
    have hi : i < data.length := by omega
    have hd : data.drop i = data[i] :: data.drop (i + 1) := List.drop_eq_getElem_cons hi
    rw [crc_loop, List.getElem?_eq_getElem hi]
    simp only
    rw [crc_byte_eq_reference crc _ h, ih (i + 1) _ (by omega) (reference_byte_lt crc _ h), hd,
      List.take_succ_cons, List.foldl_cons]

theorem modbus_crc16_eq (data : List Byte) (len : Nat) (h : len ≤ data.length) :
    modbus_crc16 data len = some (reference_crc16 (data.take len)) := by
  unfold modbus_crc16 reference_crc16
  rw [crc_loop_eq data len 0 0xFFFF (by omega) (by norm_num)]
  simp

/-! ## Reads and 16-bit values -/

theorem big_endian_value (b0 b1 : Byte) :
    ((b0.val <<< 8) ||| b1.val) % 65536 = 256 * b0.val + b1.val := by
  have h1 : b1.val < 2 ^ 8 := b1.isLt
  have h0 := b0.isLt
  rw [Nat.shiftLeft_eq, Nat.mul_comm, ← Nat.mul_add_lt_is_or h1]
  norm_num
  omega

theorem little_endian_value (lo hi : Byte) :
    (lo.val ||| (hi.val <<< 8)) % 65536 = lo.val + 256 * hi.val := by
  rw [Nat.lor_comm, big_endian_value]
  omega

theorem bytes_to_uint16_t_eq (data : List Byte) (off : Nat) (b0 b1 : Byte)
    (h0 : data[off]? = some b0) (h1 : data[off + 1]? = some b1) :
    bytes_to_uint16_t data off = some (256 * b0.val + b1.val) := by
  simp [bytes_to_uint16_t, h0, h1, big_endian_value]

/-! ## The loops of the handler -/

theorem raw_frame_loop_some (data : List Byte) (len n i : Nat) (h : i + n ≤ data.length) :
    ∃ dump, raw_frame_loop data len n i = some dump ∧ ∀ e ∈ dump, e.isPreamble = true := by
  induction n generalizing i with
  | zero => exact ⟨[], by simp [raw_frame_loop]⟩
  | succ n ih =>
    obtain ⟨rest, hrest, hmem⟩ := ih (i + 1) (by omega)
    have hi : i < data.length := by omega
    refine ⟨_, by rw [raw_frame_loop, List.getElem?_eq_getElem hi, hrest], ?_⟩
    intro e he
    simp only [List.mem_cons, List.mem_append] at he
    rcases he with rfl | he | he
    · rfl
    · split at he
      · simp only [List.mem_singleton] at he
        subst he
        rfl
      · simp at he
    · exact hmem e he

theorem raw_data_loop_eq (data : List Byte) (len fuel i : Nat) (h : len ≤ data.length)
    (hfuel : 10 ≤ i + fuel) :
    raw_data_loop data len fuel i =
      some (((data.drop i).take (min (len - 2) 10 - i)).map (fun b => Out.rawDataByte b.val)) := by
  induction fuel generalizing i with
  | zero =>
    have h0 : min (len - 2) 10 - i = 0 := by omega
    simp [raw_data_loop, h0]
  | succ fuel ih =>
    by_cases hc : i < len - 2 ∧ i < 10
    · have hi : i < data.length := by omega
      have hk : min (len - 2) 10 - i = (min (len - 2) 10 - (i + 1)) + 1 := by omega
      rw [raw_data_loop, if_pos hc, List.getElem?_eq_getElem hi, ih (i + 1) (by omega), hk,
        List.drop_eq_getElem_cons hi, List.take_succ_cons, List.map_cons]
    · have h0 : min (len - 2) 10 - i = 0 := by omega
      rw [raw_data_loop, if_neg hc, h0]
      simp

/-! ## The stages of the handler -/

theorem function_switch_some (data : List Byte) (function_code : Nat) :
    ∃ fs, function_switch data data.length function_code = some fs ∧
      ∀ e ∈ fs, e.isFunction = true ∧ e ≠ Out.functionData := by
  have hget : ∀ i, i < data.length → ∃ b, data[i]? = some b :=
    fun i hi => ⟨data[i], List.getElem?_eq_getElem hi⟩
  have hfield : 8 ≤ data.length → ∃ a v, bytes_to_uint16_t data 2 = some a ∧
      bytes_to_uint16_t data 4 = some v := by
    intro h8
    obtain ⟨b2, h2⟩ := hget 2 (by omega)
    obtain ⟨b3, h3⟩ := hget 3 (by omega)
    obtain ⟨b4, h4⟩ := hget 4 (by omega)
    obtain ⟨b5, h5⟩ := hget 5 (by omega)
    exact ⟨_, _, bytes_to_uint16_t_eq data 2 b2 b3 h2 h3, bytes_to_uint16_t_eq data 4 b4 b5 h4 h5⟩
  have hbytes := raw_data_loop_eq data data.length 8 2 le_rfl le_rfl
  generalize hb : ((data.drop 2).take (min (data.length - 2) 10 - 2)) = payload at hbytes
  have hdump : ∀ (l1 l2 : List Out), (∀ e ∈ l1, e.isFunction = true ∧ e ≠ Out.functionData) →
      (∀ e ∈ l2, e.isFunction = true ∧ e ≠ Out.functionData) →
      ∀ e ∈ l1 ++ l2, e.isFunction = true ∧ e ≠ Out.functionData := by
    intro l1 l2 hl1 hl2 e he
    rcases List.mem_append.1 he with he | he
    · exact hl1 e he
    · exact hl2 e he
  obtain ⟨ell, hell_eq, hell⟩ : ∃ ell, (if data.length > 12 then [Out.ellipsis] else []) = ell ∧
      ∀ e ∈ ell, e.isFunction = true ∧ e ≠ Out.functionData :=
    ⟨_, rfl, by split <;> simp [Out.isFunction]⟩
  have hraw : ∀ e ∈ [Out.rawDataHeader, Out.rawDataRowStart] ++
      payload.map (fun b => Out.rawDataByte b.val) ++ ell ++
      [Out.rawDataRowEnd (to_int (40 - ((data.length : Int) - 4) * 5))],
      e.isFunction = true ∧ e ≠ Out.functionData := by
    refine hdump _ _ (hdump _ _ (hdump _ _ ?_ ?_) hell) ?_
    · simp [Out.isFunction]
    · intro e he
      obtain ⟨b, _, rfl⟩ := List.mem_map.1 he
      exact ⟨rfl, by simp⟩
    · simp [Out.isFunction]
  unfold function_switch
  rw [hbytes, hell_eq]
  by_cases h8 : 8 ≤ data.length
  · obtain ⟨a, v, ha, hv⟩ := hfield h8
    rw [ha, hv]
    simp only [ge_iff_le, h8, if_true]
    split_ifs <;> first
      | exact ⟨_, rfl, hraw⟩
      | exact ⟨_, rfl, by simp [Out.isFunction]⟩
  · simp only [ge_iff_le, h8, if_false]
    split_ifs <;> first
      | exact ⟨_, rfl, hraw⟩
      | exact ⟨_, rfl, by simp⟩

theorem function_switch_06 (data : List Byte) (len a v : Nat) (h8 : 8 ≤ len)
    (ha : bytes_to_uint16_t data 2 = some a) (hv : bytes_to_uint16_t data 4 = some v) :
    function_switch data len 0x06 =
      some ([Out.registerAddress a, Out.registerValue v] ++
        (if v = 0x0000 then [Out.interpretationOff]
         else if v = 0x0001 then [Out.interpretationOn]
         else if v = 0xFFFF then [Out.interpretationAllBits]
         else [])) := by
  unfold function_switch
  rw [ha, hv, if_pos rfl, if_pos h8]

theorem function_switch_03_04 (data : List Byte) (len f a v : Nat) (h8 : 8 ≤ len)
    (hf : f = 0x03 ∨ f = 0x04)
    (ha : bytes_to_uint16_t data 2 = some a) (hv : bytes_to_uint16_t data 4 = some v) :
    function_switch data len f = some [Out.startingAddress a, Out.numberOfRegs v] := by
  unfold function_switch
  rw [ha, hv, if_neg (by omega), if_pos hf, if_pos h8]

theorem function_switch_01_02 (data : List Byte) (len f a v : Nat) (h8 : 8 ≤ len)
    (hf : f = 0x01 ∨ f = 0x02)
    (ha : bytes_to_uint16_t data 2 = some a) (hv : bytes_to_uint16_t data 4 = some v) :
    function_switch data len f = some [Out.coilStartingAddress a, Out.numberOfCoils v] := by
  unfold function_switch
  rw [ha, hv, if_neg (by omega), if_neg (by omega), if_pos hf, if_pos h8]

theorem function_switch_05 (data : List Byte) (len a v : Nat) (h8 : 8 ≤ len)
    (ha : bytes_to_uint16_t data 2 = some a) (hv : bytes_to_uint16_t data 4 = some v) :
    function_switch data len 0x05 =
      some [Out.coilAddress a,
        Out.coilValue v
          (if v = 0xFF00 then "ON " else if v = 0x0000 then "OFF" else "???")] := by
  unfold function_switch
  rw [ha, hv, if_neg (by omega), if_neg (by omega), if_neg (by omega), if_pos rfl, if_pos h8]

theorem function_switch_short (data : List Byte) (len f : Nat) (h8 : len < 8)
    (hf : 1 ≤ f ∧ f ≤ 6) :
    function_switch data len f = some [] := by
  have hn : ¬ len ≥ 8 := by omega
  unfold function_switch
  simp only [hn, if_false]
  split_ifs <;> first | rfl | omega

theorem function_switch_default (data : List Byte) (len f : Nat) (hlen : len ≤ data.length)
    (hf : ¬ (1 ≤ f ∧ f ≤ 6)) :
    function_switch data len f =
      some ([Out.rawDataHeader, Out.rawDataRowStart] ++
        ((data.drop 2).take (min (len - 2) 10 - 2)).map (fun b => Out.rawDataByte b.val) ++
        (if len > 12 then [Out.ellipsis] else []) ++
        [Out.rawDataRowEnd (to_int (40 - ((len : Int) - 4) * 5))]) := by
  unfold function_switch
  rw [if_neg (by omega), if_neg (by omega), if_neg (by omega), if_neg (by omega),
    raw_data_loop_eq data len 8 2 hlen le_rfl]

/-- The calls of a frame of at least 4 bytes, stage by stage: the preamble `pre`, the
frame analysis, the CRC report and, by the outcome of the CRC comparison and of the
address check, the rejection, the function data section `fs` or the address mismatch. -/
theorem handler_stages (frame_counter : Nat) (data : List Byte) (s f lo hi : Byte)
    (h4 : 4 ≤ data.length) (h0 : data[0]? = some s) (h1 : data[1]? = some f)
    (hlo : data[data.length - 2]? = some lo) (hhi : data[data.length - 1]? = some hi) :
    ∃ pre fs, (∀ e ∈ pre, e.isPreamble = true) ∧
      function_switch data data.length f.val = some fs ∧
      (∀ e ∈ fs, e.isFunction = true ∧ e ≠ Out.functionData) ∧
      modbus_crc16 data (data.length - 2) =
        some (reference_crc16 (data.take (data.length - 2))) ∧
      modbus_frame_handler frame_counter data data.length =
        some ((frame_counter + 1) % 4294967296,
          if lo.val + 256 * hi.val ≠ reference_crc16 (data.take (data.length - 2)) then
            pre ++ analysis s.val f.val ++
              crc_report (lo.val + 256 * hi.val)
                (reference_crc16 (data.take (data.length - 2))) ++
              [Out.borderSep, Out.crcMismatch, Out.borderBottomBlank]
          else if s.val = MODBUS_SLAVE_ID ∨ s.val = 0x00 then
            pre ++ analysis s.val f.val ++
              crc_report (lo.val + 256 * hi.val)
                (reference_crc16 (data.take (data.length - 2))) ++
              [Out.borderSep,
                if s.val = MODBUS_SLAVE_ID then Out.addressMatch else Out.broadcast,
                Out.borderSep, Out.functionData] ++ fs ++
              [Out.borderSep, Out.complete, Out.borderBottomBlank]
          else
            pre ++ analysis s.val f.val ++
              crc_report (lo.val + 256 * hi.val)
                (reference_crc16 (data.take (data.length - 2))) ++
              [Out.borderSep, Out.addressMismatch s.val, Out.borderBottomBlank]) := by
  obtain ⟨dump, hdump, hdm⟩ := raw_frame_loop_some data data.length data.length 0 (by omega)
  obtain ⟨fs, hfs, hfm⟩ := function_switch_some data f.val
  have hcrc := modbus_crc16_eq data (data.length - 2) (by omega)
  refine ⟨[Out.newline, Out.borderTop, Out.frameNumber ((frame_counter + 1) % 4294967296),
      Out.borderSep, Out.rawFrameHeader data.length, Out.rowStart] ++ dump ++
      List.replicate (padding data.length).toNat Out.space ++ [Out.rowEnd, Out.borderSep],
    fs, ?_, hfs, hfm, hcrc, ?_⟩
  · intro e he
    rcases List.mem_append.1 he with he | he
    · rcases List.mem_append.1 he with he | he
      · rcases List.mem_append.1 he with he | he
        · simp only [List.mem_cons, List.mem_singleton, List.not_mem_nil, or_false] at he
          rcases he with rfl | rfl | rfl | rfl | rfl | rfl <;> rfl
        · exact hdm e he
      · rw [(List.mem_replicate.1 he).2]
        rfl
    · simp only [List.mem_cons, List.mem_singleton, List.not_mem_nil, or_false] at he
      rcases he with rfl | rfl <;> rfl
  · unfold modbus_frame_handler
    simp only [hdump, h0, h1, not_lt.2 h4, if_false]
    unfold crc_validation
    simp only [ge_iff_le, h4, if_true, hlo, hhi, hcrc, little_endian_value]
    unfold address_check function_parsing
    simp only [hfs]
    by_cases hne : lo.val + 256 * hi.val ≠ reference_crc16 (data.take (data.length - 2))
    · simp [hne, analysis, crc_report]
    · rw [if_neg hne, if_neg hne]
      have heq : lo.val + 256 * hi.val = reference_crc16 (data.take (data.length - 2)) :=
        not_not.1 hne
      by_cases hs1 : s.val = MODBUS_SLAVE_ID
      · simp [hs1, analysis, crc_report, heq]
      · by_cases hs0 : s.val = 0x00
        · simp [hs0, analysis, crc_report, heq, MODBUS_SLAVE_ID]
        · simp [hs1, hs0, analysis, crc_report, heq]

/-! ## The observations on the stages -/

theorem isPreamble_excl (e : Out) (h : e.isPreamble = true) :
    e.isCrc = false ∧ e.isAddress = false ∧ e.isFunction = false ∧ e ≠ Out.tooShort := by
  cases e <;> simp_all [Out.isPreamble, Out.isCrc, Out.isAddress, Out.isFunction]

theorem isFunction_excl (e : Out) (h : e.isFunction = true) :
    e.isCrc = false ∧ e.isAddress = false ∧ e.isPreamble = false := by
  cases e <;> simp_all [Out.isPreamble, Out.isCrc, Out.isAddress, Out.isFunction]

theorem dropWhile_ne_append (x : Out) (l r : List Out) (h : x ∉ l) :
    (l ++ x :: r).dropWhile (fun e => decide (e ≠ x)) = x :: r := by
  induction l with
  | nil => simp [List.dropWhile]
  | cons a l ih =>
    have ha : a ≠ x := fun hax => h (hax ▸ List.mem_cons_self _ _)
    have hl : x ∉ l := fun hx => h (List.mem_cons_of_mem _ hx)
    simpa [List.dropWhile, ha] using ih hl

theorem takeWhile_ne_append (x : Out) (l r : List Out) (h : x ∉ l) :
    (l ++ x :: r).takeWhile (fun e => decide (e ≠ x)) = l := by
  induction l with
  | nil => simp [List.takeWhile]
  | cons a l ih =>
    have ha : a ≠ x := fun hax => h (hax ▸ List.mem_cons_self _ _)
    have hl : x ∉ l := fun hx => h (List.mem_cons_of_mem _ hx)
    simpa [List.takeWhile, ha] using ih hl

theorem function_section_eq (l fs post : List Out) (h1 : Out.functionData ∉ l)
    (h2 : Out.borderSep ∉ fs) :
    function_section (l ++ Out.functionData :: (fs ++ Out.borderSep :: post)) = fs := by
  unfold function_section
  rw [dropWhile_ne_append _ _ _ h1, List.drop_one, List.tail_cons,
    takeWhile_ne_append _ _ _ h2]

theorem filter_isAddress_preamble (pre : List Out) (h : ∀ e ∈ pre, e.isPreamble = true)
    (s f r c : Nat) :
    (pre ++ analysis s f ++ crc_report r c).filter Out.isAddress = [] := by
  rw [List.filter_eq_nil_iff]
  intro e he
  rcases List.mem_append.1 he with he | he
  · rcases List.mem_append.1 he with he | he
    · simp [(isPreamble_excl e (h e he)).2.1]
    · simp only [analysis, List.mem_cons, List.mem_singleton, List.not_mem_nil, or_false] at he
      rcases he with rfl | rfl | rfl <;> simp [Out.isAddress]
  · simp only [crc_report, List.mem_cons, List.mem_singleton, List.not_mem_nil, or_false] at he
    rcases he with rfl | rfl | rfl | rfl <;> simp [Out.isAddress]

theorem not_isFunction_preamble (pre : List Out) (h : ∀ e ∈ pre, e.isPreamble = true)
    (s f r c : Nat) :
    ∀ e ∈ pre ++ analysis s f ++ crc_report r c, e.isFunction = false := by
  intro e he
  rcases List.mem_append.1 he with he | he
  · rcases List.mem_append.1 he with he | he
    · exact (isPreamble_excl e (h e he)).2.2.1
    · simp only [analysis, List.mem_cons, List.mem_singleton, List.not_mem_nil, or_false] at he
      rcases he with rfl | rfl | rfl <;> rfl
  · simp only [crc_report, List.mem_cons, List.mem_singleton, List.not_mem_nil, or_false] at he
    rcases he with rfl | rfl | rfl | rfl <;> rfl

/-- A frame whose trailing CRC differs from the computed one: the calls end with the
rejection, after the preamble, the analysis and the CRC report. -/
theorem handler_rejected (frame_counter : Nat) (data : List Byte) (lo hi : Byte)
    (h4 : 4 ≤ data.length)
    (hlo : data[data.length - 2]? = some lo) (hhi : data[data.length - 1]? = some hi)
    (hne : lo.val + 256 * hi.val ≠ reference_crc16 (data.take (data.length - 2))) :
    ∃ out, modbus_frame_handler frame_counter data data.length =
        some ((frame_counter + 1) % 4294967296, out) ∧
      Out.crcMismatch ∈ out ∧
      Out.crcReceived (lo.val + 256 * hi.val) ∈ out ∧
      Out.crcComputed (reference_crc16 (data.take (data.length - 2))) ∈ out ∧
      Out.crcStatus false ∈ out ∧
      out.filter Out.isAddress = [] ∧
      ∀ e ∈ out, e.isFunction = false := by
  have h0 : data[0]? = some data[0] := List.getElem?_eq_getElem (by omega)
  have h1 : data[1]? = some data[1] := List.getElem?_eq_getElem (by omega)
  obtain ⟨pre, fs, hpre, -, -, -, hout⟩ :=
    handler_stages frame_counter data _ _ lo hi h4 h0 h1 hlo hhi
  rw [if_pos hne] at hout
  refine ⟨_, hout, ?_, ?_, ?_, ?_, ?_, ?_⟩
  · simp
  · simp [crc_report]
  · simp [crc_report]
  · simp [crc_report, hne]
  · rw [List.filter_append, filter_isAddress_preamble pre hpre]
    simp [Out.isAddress]
  · intro e he
    rcases List.mem_append.1 he with he | he
    · exact not_isFunction_preamble pre hpre _ _ _ _ e he
    · simp only [List.mem_cons, List.mem_singleton, List.not_mem_nil, or_false] at he
      rcases he with rfl | rfl | rfl <;> rfl

/-- A frame whose trailing CRC is the computed one and whose slave id is neither 0x01
nor 0x00: the calls end with the address mismatch. -/
theorem handler_filtered (frame_counter : Nat) (data : List Byte) (s lo hi : Byte)
    (h4 : 4 ≤ data.length) (h0 : data[0]? = some s)
    (hlo : data[data.length - 2]? = some lo) (hhi : data[data.length - 1]? = some hi)
    (heq : lo.val + 256 * hi.val = reference_crc16 (data.take (data.length - 2)))
    (hs : ¬ (s.val = MODBUS_SLAVE_ID ∨ s.val = 0x00)) :
    ∃ out, modbus_frame_handler frame_counter data data.length =
        some ((frame_counter + 1) % 4294967296, out) ∧
      Out.crcMismatch ∉ out ∧
      Out.crcStatus true ∈ out ∧
      out.filter Out.isAddress = [Out.addressMismatch s.val] ∧
      ∀ e ∈ out, e.isFunction = false := by
  have h1 : data[1]? = some data[1] := List.getElem?_eq_getElem (by omega)
  obtain ⟨pre, fs, hpre, -, -, -, hout⟩ :=
    handler_stages frame_counter data s _ lo hi h4 h0 h1 hlo hhi
  rw [if_neg (not_not.2 heq), if_neg hs] at hout
  refine ⟨_, hout, ?_, ?_, ?_, ?_⟩
  · intro hmem
    rcases List.mem_append.1 hmem with he | he
    · rcases List.mem_append.1 he with he | he
      · rcases List.mem_append.1 he with he | he
        · have := (isPreamble_excl _ (hpre _ he)).1
          simp [Out.isCrc] at this
        · simp [analysis] at he
      · simp [crc_report] at he
    · simp at he
  · simp [crc_report, heq]
  · rw [List.filter_append, filter_isAddress_preamble pre hpre]
    simp [Out.isAddress]
  · intro e he
    rcases List.mem_append.1 he with he | he
    · exact not_isFunction_preamble pre hpre _ _ _ _ e he
    · simp only [List.mem_cons, List.mem_singleton, List.not_mem_nil, or_false] at he
      rcases he with rfl | rfl | rfl <;> rfl

/-- A frame whose trailing CRC is the computed one and whose slave id is 0x01 or 0x00:
the calls go on to the function data section, which holds what the `switch` prints. -/
theorem handler_accepted (frame_counter : Nat) (data : List Byte) (s f lo hi : Byte)
    (h4 : 4 ≤ data.length) (h0 : data[0]? = some s) (h1 : data[1]? = some f)
    (hlo : data[data.length - 2]? = some lo) (hhi : data[data.length - 1]? = some hi)
    (heq : lo.val + 256 * hi.val = reference_crc16 (data.take (data.length - 2)))
    (hs : s.val = MODBUS_SLAVE_ID ∨ s.val = 0x00) :
    ∃ out fs, modbus_frame_handler frame_counter data data.length =
        some ((frame_counter + 1) % 4294967296, out) ∧
      function_switch data data.length f.val = some fs ∧
      function_section out = fs ∧
      Out.crcMismatch ∉ out ∧
      Out.crcStatus true ∈ out ∧
      out.filter Out.isAddress =
        [if s.val = MODBUS_SLAVE_ID then Out.addressMatch else Out.broadcast] ∧
      Out.functionData ∈ out ∧
      Out.slaveId s.val ∈ out ∧
      Out.functionCode f.val (get_function_name f.val)
        (25 - ((get_function_name f.val).length : Int)) ∈ out ∧
      ∀ e ∈ out, e.isFunction = true → e = Out.functionData ∨ e ∈ fs := by
  obtain ⟨pre, fs, hpre, hfs, hfm, -, hout⟩ :=
    handler_stages frame_counter data s f lo hi h4 h0 h1 hlo hhi
  rw [if_neg (not_not.2 heq), if_pos hs] at hout
  have hsep : Out.borderSep ∉ fs := fun hmem => by
    have := (hfm _ hmem).1
    simp [Out.isFunction] at this
  have hmis : Out.crcMismatch ∉ fs := fun hmem => by
    have := (hfm _ hmem).1
    simp [Out.isFunction] at this
  have haddr : ∀ e ∈ fs, ¬ (e.isAddress = true) := fun e he => by
    simp [(isFunction_excl e (hfm e he).1).2.1]
  have hnf := not_isFunction_preamble pre hpre s.val f.val (lo.val + 256 * hi.val)
    (reference_crc16 (data.take (data.length - 2)))
  have hpm : Out.crcMismatch ∉ pre := fun hmem => by
    have := (isPreamble_excl _ (hpre _ hmem)).1
    simp [Out.isCrc] at this
  refine ⟨_, fs, hout, hfs, ?_, ?_, ?_, ?_, ?_, ?_, ?_, ?_⟩
  · have hl : Out.functionData ∉ pre ++ analysis s.val f.val ++
        crc_report (lo.val + 256 * hi.val) (reference_crc16 (data.take (data.length - 2))) ++
        [Out.borderSep, if s.val = MODBUS_SLAVE_ID then Out.addressMatch else Out.broadcast,
          Out.borderSep] := by
      intro hmem
      rcases List.mem_append.1 hmem with he | he
      · have := hnf _ he
        simp [Out.isFunction] at this
      · split at he <;> simp at he
    have := function_section_eq _ fs [Out.complete, Out.borderBottomBlank] hl hsep
    simpa using this
  · intro hmem
    simp only [List.mem_append] at hmem
    rcases hmem with ((((he | he) | he) | he) | he) | he
    · exact hpm he
    · simp [analysis] at he
    · simp [crc_report] at he
    · split at he <;> simp at he
    · exact hmis he
    · simp at he
  · simp [crc_report, heq]
  · rw [List.filter_append, List.filter_append, List.filter_append,
      filter_isAddress_preamble pre hpre, List.filter_eq_nil_iff.2 haddr]
    split <;> simp [Out.isAddress]
  · simp
  · simp [analysis]
  · simp [analysis]
  · intro e he hfun
    simp only [List.mem_append] at he
    rcases he with ((((he | he) | he) | he) | he) | he
    · rw [hnf e (List.mem_append.2 (Or.inl (List.mem_append.2 (Or.inl he))))] at hfun
      exact absurd hfun (by decide)
    · rw [hnf e (List.mem_append.2 (Or.inl (List.mem_append.2 (Or.inr he))))] at hfun
      exact absurd hfun (by decide)
    · rw [hnf e (List.mem_append.2 (Or.inr he))] at hfun
      exact absurd hfun (by decide)
    · simp only [List.mem_cons, List.mem_singleton, List.not_mem_nil, or_false] at he
      rcases he with rfl | rfl | rfl | rfl
      · exact absurd hfun (by decide)
      · split at hfun <;> exact absurd hfun (by decide)
      · exact absurd hfun (by decide)
      · exact Or.inl rfl
    · exact Or.inr he
    · simp only [List.mem_cons, List.mem_singleton, List.not_mem_nil, or_false] at he
      rcases he with rfl | rfl | rfl <;> exact absurd hfun (by decide)

theorem crc_correct_iff (data : List Byte) (len v : Nat) (h : len ≤ data.length) :
    modbus_crc16 data len = some v ↔ v = reference_crc16 (data.take len) := by
  rw [modbus_crc16_eq data len h]
  constructor
  · intro hv
    exact (Option.some.inj hv).symm
  · intro hv
    rw [hv]

/-! ## The claims -/

set_option maxRecDepth 100000

/-- C1: for every buffer and every length `len` within it, 0 included, `modbus_crc16`
returns the reference Modbus CRC-16 of the first `len` bytes: the register starts at
0xFFFF, each byte in order is XORed into its low byte and followed by exactly 8 rounds,
each a right shift by one bit with an additional XOR with 0xA001 when the bit shifted
out was 1, and the final register is the result. -/
theorem modbus_crc16_is_reference (data : List Byte) (len : Nat) (h : len ≤ data.length) :
    modbus_crc16 data len = some (reference_crc16 (data.take len)) :=
  modbus_crc16_eq data len h

/-- C1 at the first six bytes of the Write Single Register example frame. -/
theorem modbus_crc16_is_reference_witness :
    6 ≤ ([0x01, 0x06, 0x00, 0x10, 0x00, 0x01, 0x49, 0xCF] : List Byte).length ∧
      modbus_crc16 [0x01, 0x06, 0x00, 0x10, 0x00, 0x01, 0x49, 0xCF] 6 =
        some (reference_crc16
          (List.take 6 ([0x01, 0x06, 0x00, 0x10, 0x00, 0x01, 0x49, 0xCF] : List Byte))) :=
  ⟨by decide, modbus_crc16_is_reference _ 6 (by decide)⟩

/-- C2: for every frame of at least 4 bytes with trailing bytes `lo` and `hi`, the
handler returns, the CRC over the first `len - 2` bytes is computed, and the frame is
rejected with a CRC mismatch if and only if `lo + 256 * hi` differs from it; a rejected
frame reaches neither the address check nor the function decoding, and a frame whose
CRC is equal is reported valid and gets exactly one address classification, whatever
its slave id and function code are. -/
theorem crc_mismatch_iff (frame_counter : Nat) (data : List Byte) (lo hi : Byte)
    (h4 : 4 ≤ data.length)
    (hlo : data[data.length - 2]? = some lo) (hhi : data[data.length - 1]? = some hi) :
    ∃ out computed,
      modbus_frame_handler frame_counter data data.length =
        some ((frame_counter + 1) % 4294967296, out) ∧
      modbus_crc16 data (data.length - 2) = some computed ∧
      (Out.crcMismatch ∈ out ↔ lo.val + 256 * hi.val ≠ computed) ∧
      (lo.val + 256 * hi.val ≠ computed →
        out.filter Out.isAddress = [] ∧ ∀ e ∈ out, e.isFunction = false) ∧
      (lo.val + 256 * hi.val = computed →
        Out.crcStatus true ∈ out ∧ ∃ a, out.filter Out.isAddress = [a]) := by
  have hcrc := modbus_crc16_eq data (data.length - 2) (by omega)
  have h0 : data[0]? = some data[0] := List.getElem?_eq_getElem (by omega)
  have h1 : data[1]? = some data[1] := List.getElem?_eq_getElem (by omega)
  by_cases hne : lo.val + 256 * hi.val ≠ reference_crc16 (data.take (data.length - 2))
  · obtain ⟨out, hout, hm, -, -, -, hf, hfn⟩ :=
      handler_rejected frame_counter data lo hi h4 hlo hhi hne
    exact ⟨out, _, hout, hcrc, ⟨fun _ => hne, fun _ => hm⟩, fun _ => ⟨hf, hfn⟩,
      fun heq => absurd heq hne⟩
  · have heq := not_not.1 hne
    by_cases hs : (data[0]).val = MODBUS_SLAVE_ID ∨ (data[0]).val = 0x00
    · obtain ⟨out, fs, hout, -, -, hm, hst, hf, -⟩ :=
        handler_accepted frame_counter data _ _ lo hi h4 h0 h1 hlo hhi heq hs
      exact ⟨out, _, hout, hcrc, ⟨fun hmem => absurd hmem hm, fun h => absurd h hne⟩,
        fun h => absurd h hne, fun _ => ⟨hst, _, hf⟩⟩
    · obtain ⟨out, hout, hm, hst, hf, -⟩ :=
        handler_filtered frame_counter data _ lo hi h4 h0 hlo hhi heq hs
      exact ⟨out, _, hout, hcrc, ⟨fun hmem => absurd hmem hm, fun h => absurd h hne⟩,
        fun h => absurd h hne, fun _ => ⟨hst, _, hf⟩⟩

/-- C2 at a Read Coils frame whose second CRC byte is wrong. -/
theorem crc_mismatch_iff_witness :
    4 ≤ ([0x01, 0x01, 0x00, 0x00, 0x00, 0x08, 0x3D, 0x00] : List Byte).length ∧
      ∃ out computed,
        modbus_frame_handler 7 [0x01, 0x01, 0x00, 0x00, 0x00, 0x08, 0x3D, 0x00] 8 =
          some (8, out) ∧
        modbus_crc16 [0x01, 0x01, 0x00, 0x00, 0x00, 0x08, 0x3D, 0x00] 6 = some computed ∧
        (Out.crcMismatch ∈ out ↔ 0x3D + 256 * 0x00 ≠ computed) ∧
        (0x3D + 256 * 0x00 ≠ computed →
          out.filter Out.isAddress = [] ∧ ∀ e ∈ out, e.isFunction = false) ∧
        (0x3D + 256 * 0x00 = computed →
          Out.crcStatus true ∈ out ∧ ∃ a, out.filter Out.isAddress = [a]) :=
  ⟨by decide,
    crc_mismatch_iff 7 [0x01, 0x01, 0x00, 0x00, 0x00, 0x08, 0x3D, 0x00] 0x3D 0x00
      (by decide) (by decide) (by decide)⟩

/-- A frame of fewer than 4 bytes: the calls are the banner, the raw dump, the padding
and the too-short error. -/
theorem handler_too_short (frame_counter : Nat) (data : List Byte) (h : data.length < 4) :
    ∃ out, modbus_frame_handler frame_counter data data.length =
        some ((frame_counter + 1) % 4294967296, out) ∧
      out = [Out.newline, Out.borderTop, Out.frameNumber ((frame_counter + 1) % 4294967296),
          Out.borderSep, Out.rawFrameHeader data.length, Out.rowStart] ++
        data.map (fun b => Out.rawByte b.val) ++
        List.replicate (58 - 3 * data.length) Out.space ++
        [Out.rowEnd, Out.borderSep, Out.tooShort, Out.borderBottom] ∧
      Out.tooShort ∈ out ∧
      ∀ e ∈ out, e.isCrc = false ∧ e.isAddress = false ∧ e.isFunction = false := by
  have hpad : (padding data.length).toNat = 58 - 3 * data.length := by
    have h8 : ¬ data.length > 8 := by omega
    unfold padding to_int
    rw [if_neg h8]
    have hm : (58 - (data.length : Int) * 3) % 4294967296 = 58 - (data.length : Int) * 3 :=
      Int.emod_eq_of_lt (by omega) (by omega)
    rw [hm, if_pos (by omega)]
    omega
  have hdump : raw_frame_loop data data.length data.length 0 =
      some (data.map (fun b => Out.rawByte b.val)) := by
    match data, h with
    | [], _ => rfl
    | [a], _ => rfl
    | [a, b], _ => rfl
    | [a, b, c], _ => rfl
  refine ⟨_, ?_, rfl, by simp, ?_⟩
  · unfold modbus_frame_handler
    simp only [hdump, hpad, h, if_true]
    simp
  · intro e he
    simp only [List.mem_append, List.mem_cons, List.mem_singleton, List.not_mem_nil,
      or_false, List.mem_map, List.mem_replicate] at he
    rcases he with ((he | ⟨b, -, rfl⟩) | ⟨-, rfl⟩) | he
    · rcases he with rfl | rfl | rfl | rfl | rfl | rfl <;> exact ⟨rfl, rfl, rfl⟩
    · exact ⟨rfl, rfl, rfl⟩
    · exact ⟨rfl, rfl, rfl⟩
    · rcases he with rfl | rfl | rfl | rfl <;> exact ⟨rfl, rfl, rfl⟩

/-- C3: for every frame of 0, 1, 2 or 3 bytes, whatever they hold, the handler returns
and the calls it makes are exactly the banner, the raw dump of the frame, the padding
and the too-short error: no call of the CRC validation, of the address check or of the
function decoding is made. -/
theorem too_short_rejected (frame_counter : Nat) (data : List Byte) (h : data.length < 4) :
    ∃ out, modbus_frame_handler frame_counter data data.length =
        some ((frame_counter + 1) % 4294967296, out) ∧
      out = [Out.newline, Out.borderTop, Out.frameNumber ((frame_counter + 1) % 4294967296),
          Out.borderSep, Out.rawFrameHeader data.length, Out.rowStart] ++
        data.map (fun b => Out.rawByte b.val) ++
        List.replicate (58 - 3 * data.length) Out.space ++
        [Out.rowEnd, Out.borderSep, Out.tooShort, Out.borderBottom] ∧
      Out.tooShort ∈ out ∧
      ∀ e ∈ out, e.isCrc = false ∧ e.isAddress = false ∧ e.isFunction = false :=
  handler_too_short frame_counter data h

/-- C3 at a 3-byte frame. -/
theorem too_short_rejected_witness :
    ([0x01, 0x03, 0x00] : List Byte).length < 4 ∧
      ∃ out, modbus_frame_handler 0 [0x01, 0x03, 0x00] 3 = some (1, out) ∧
        out = [Out.newline, Out.borderTop, Out.frameNumber 1, Out.borderSep,
            Out.rawFrameHeader 3, Out.rowStart] ++
          [Out.rawByte 1, Out.rawByte 3, Out.rawByte 0] ++
          List.replicate 49 Out.space ++
          [Out.rowEnd, Out.borderSep, Out.tooShort, Out.borderBottom] ∧
        Out.tooShort ∈ out ∧
        ∀ e ∈ out, e.isCrc = false ∧ e.isAddress = false ∧ e.isFunction = false :=
  ⟨by decide, too_short_rejected 0 [0x01, 0x03, 0x00] (by decide)⟩

/-- C4: for every frame of at least 4 bytes whose trailing CRC is correct, slave id
0x01 is classified as addressed to this device and slave id 0x00 as broadcast, and both
go on to the function decoding, while every other slave id is classified as addressed
to another device and no call of the function decoding is made. -/
theorem address_filter (frame_counter : Nat) (data : List Byte) (s lo hi : Byte)
    (h4 : 4 ≤ data.length) (h0 : data[0]? = some s)
    (hlo : data[data.length - 2]? = some lo) (hhi : data[data.length - 1]? = some hi)
    (hcrc : modbus_crc16 data (data.length - 2) = some (lo.val + 256 * hi.val)) :
    ∃ out, modbus_frame_handler frame_counter data data.length =
        some ((frame_counter + 1) % 4294967296, out) ∧
      Out.crcMismatch ∉ out ∧
      (s.val = 0x01 →
        out.filter Out.isAddress = [Out.addressMatch] ∧ Out.functionData ∈ out) ∧
      (s.val = 0x00 →
        out.filter Out.isAddress = [Out.broadcast] ∧ Out.functionData ∈ out) ∧
      (s.val ≠ 0x01 → s.val ≠ 0x00 →
        out.filter Out.isAddress = [Out.addressMismatch s.val] ∧
          ∀ e ∈ out, e.isFunction = false) := by
  have heq := (crc_correct_iff data _ _ (by omega)).1 hcrc
  have h1 : data[1]? = some data[1] := List.getElem?_eq_getElem (by omega)
  by_cases hs : s.val = MODBUS_SLAVE_ID ∨ s.val = 0x00
  · obtain ⟨out, fs, hout, -, -, hm, -, hf, hfd, -⟩ :=
      handler_accepted frame_counter data s _ lo hi h4 h0 h1 hlo hhi heq hs
    unfold MODBUS_SLAVE_ID at hf hs
    refine ⟨out, hout, hm, ?_, ?_, ?_⟩
    · intro h
      rw [hf, if_pos h]
      exact ⟨rfl, hfd⟩
    · intro h
      rw [hf, if_neg (by omega)]
      exact ⟨rfl, hfd⟩
    · intro ha hb
      omega
  · obtain ⟨out, hout, hm, -, hf, hfn⟩ :=
      handler_filtered frame_counter data s lo hi h4 h0 hlo hhi heq hs
    refine ⟨out, hout, hm, ?_, ?_, ?_⟩
    · intro h
      exact absurd (Or.inl h) hs
    · intro h
      exact absurd (Or.inr h) hs
    · intro _ _
      exact ⟨hf, hfn⟩

/-- C4 at the frame `[0x02, 0x03, 0x00, 0x00, 0x00, 0x02, 0xC4, 0x38]`, addressed to
slave 0x02 with a correct CRC. -/
theorem address_filter_witness :
    4 ≤ ([0x02, 0x03, 0x00, 0x00, 0x00, 0x02, 0xC4, 0x38] : List Byte).length ∧
      ∃ out, modbus_frame_handler 0 [0x02, 0x03, 0x00, 0x00, 0x00, 0x02, 0xC4, 0x38] 8 =
          some (1, out) ∧
        Out.crcMismatch ∉ out ∧
        ((0x02 : Nat) = 0x01 →
          out.filter Out.isAddress = [Out.addressMatch] ∧ Out.functionData ∈ out) ∧
        ((0x02 : Nat) = 0x00 →
          out.filter Out.isAddress = [Out.broadcast] ∧ Out.functionData ∈ out) ∧
        ((0x02 : Nat) ≠ 0x01 → (0x02 : Nat) ≠ 0x00 →
          out.filter Out.isAddress = [Out.addressMismatch 0x02] ∧
            ∀ e ∈ out, e.isFunction = false) :=
  ⟨by decide,
    address_filter 0 [0x02, 0x03, 0x00, 0x00, 0x00, 0x02, 0xC4, 0x38] 0x02 0xC4 0x38
      (by decide) (by decide) (by decide) (by decide) (by decide)⟩

theorem lo_hi_byte (x : Nat) (h : x < 65536) :
    (lo_byte x).val + 256 * (hi_byte x).val = x := by
  simp only [lo_byte, hi_byte]
  omega

theorem hi_lo_byte (x : Nat) (h : x < 65536) :
    256 * (hi_byte x).val + (lo_byte x).val = x := by
  simp only [lo_byte, hi_byte]
  omega

/-- C5: for every 16-bit register address `a` and value `v`, the CRC `c` of the six
bytes `[0x01, 0x06, a_hi, a_lo, v_hi, v_lo]` is computed and the 8-byte frame that
appends `c_lo, c_hi` is accepted by the handler: the CRC is valid, the frame is
classified as addressed to this device, the function is named Write Single Register and
the function data section starts with register address `a` and register value `v`; for
`a = 0x0010` and `v = 0x0001` the section ends with the interpretation ON/ENABLE/TRUE. -/
theorem write_single_register_round_trip (frame_counter a v : Nat)
    (ha : a < 65536) (hv : v < 65536) :
    ∃ c out,
      modbus_crc16 [0x01, 0x06, hi_byte a, lo_byte a, hi_byte v, lo_byte v] 6 = some c ∧
      modbus_frame_handler frame_counter
          [0x01, 0x06, hi_byte a, lo_byte a, hi_byte v, lo_byte v, lo_byte c, hi_byte c] 8 =
        some ((frame_counter + 1) % 4294967296, out) ∧
      Out.crcMismatch ∉ out ∧
      Out.crcStatus true ∈ out ∧
      out.filter Out.isAddress = [Out.addressMatch] ∧
      Out.slaveId 0x01 ∈ out ∧
      Out.functionCode 0x06 "Write Single Register" 4 ∈ out ∧
      (function_section out).take 2 = [Out.registerAddress a, Out.registerValue v] ∧
      (a = 0x0010 → v = 0x0001 →
        function_section out =
          [Out.registerAddress 0x0010, Out.registerValue 0x0001, Out.interpretationOn]) := by
  have hc6 := modbus_crc16_eq [0x01, 0x06, hi_byte a, lo_byte a, hi_byte v, lo_byte v] 6
    (by simp)
  rw [show List.take 6 [(0x01 : Byte), 0x06, hi_byte a, lo_byte a, hi_byte v, lo_byte v] =
    [0x01, 0x06, hi_byte a, lo_byte a, hi_byte v, lo_byte v] from rfl] at hc6
  generalize hcdef : reference_crc16 [0x01, 0x06, hi_byte a, lo_byte a, hi_byte v, lo_byte v] = c
    at hc6
  have hclt : c < 65536 := hcdef ▸ reference_crc16_lt _
  have heq : (lo_byte c).val + 256 * (hi_byte c).val = reference_crc16 (List.take
      ([(0x01 : Byte), 0x06, hi_byte a, lo_byte a, hi_byte v, lo_byte v, lo_byte c,
        hi_byte c].length - 2)
      [0x01, 0x06, hi_byte a, lo_byte a, hi_byte v, lo_byte v, lo_byte c, hi_byte c]) := by
    rw [lo_hi_byte c hclt, ← hcdef]
    rfl
  obtain ⟨out, fs, hout, hfs, hsec, hm, hst, hf, -, hid, hname, -⟩ :=
    handler_accepted frame_counter
      [0x01, 0x06, hi_byte a, lo_byte a, hi_byte v, lo_byte v, lo_byte c, hi_byte c]
      0x01 0x06 (lo_byte c) (hi_byte c) (by simp) rfl rfl rfl rfl heq (Or.inl rfl)
  have hra := bytes_to_uint16_t_eq
    [0x01, 0x06, hi_byte a, lo_byte a, hi_byte v, lo_byte v, lo_byte c, hi_byte c] 2
    (hi_byte a) (lo_byte a) rfl rfl
  have hrv := bytes_to_uint16_t_eq
    [0x01, 0x06, hi_byte a, lo_byte a, hi_byte v, lo_byte v, lo_byte c, hi_byte c] 4
    (hi_byte v) (lo_byte v) rfl rfl
  rw [hi_lo_byte a ha] at hra
  rw [hi_lo_byte v hv] at hrv
  have hfs' : fs = [Out.registerAddress a, Out.registerValue v] ++
      (if v = 0x0000 then [Out.interpretationOff]
       else if v = 0x0001 then [Out.interpretationOn]
       else if v = 0xFFFF then [Out.interpretationAllBits]
       else []) :=
    Option.some.inj (hfs.symm.trans (function_switch_06 _ _ a v (by simp) hra hrv))
  refine ⟨c, out, hc6, hout, hm, hst, ?_, hid, ?_, ?_, ?_⟩
  · rw [hf]
    rfl
  · exact hname
  · rw [hsec, hfs']
    rfl
  · intro ha16 hv1
    rw [hsec, hfs', ha16, hv1]
    rfl

/-- C5 at register address 0x0010 and register value 0x0001. -/
theorem write_single_register_round_trip_witness :
    (0x0010 : Nat) < 65536 ∧ (0x0001 : Nat) < 65536 ∧
      ∃ c out,
        modbus_crc16 [0x01, 0x06, hi_byte 0x0010, lo_byte 0x0010, hi_byte 0x0001,
          lo_byte 0x0001] 6 = some c ∧
        modbus_frame_handler 0
            [0x01, 0x06, hi_byte 0x0010, lo_byte 0x0010, hi_byte 0x0001, lo_byte 0x0001,
              lo_byte c, hi_byte c] 8 =
          some ((0 + 1) % 4294967296, out) ∧
        Out.crcMismatch ∉ out ∧
        Out.crcStatus true ∈ out ∧
        out.filter Out.isAddress = [Out.addressMatch] ∧
        Out.slaveId 0x01 ∈ out ∧
        Out.functionCode 0x06 "Write Single Register" 4 ∈ out ∧
        (function_section out).take 2 =
          [Out.registerAddress 0x0010, Out.registerValue 0x0001] ∧
        ((0x0010 : Nat) = 0x0010 → (0x0001 : Nat) = 0x0001 →
          function_section out =
            [Out.registerAddress 0x0010, Out.registerValue 0x0001, Out.interpretationOn]) :=
  ⟨by decide, by decide, write_single_register_round_trip 0 0x0010 0x0001 (by decide) (by decide)⟩

theorem take_set_of_le (l : List Byte) (n m : Nat) (a : Byte) (h : m ≤ n) :
    (l.set n a).take m = l.take m := by
  induction l generalizing n m with
  | nil => simp
  | cons x l ih =>
    cases m with
    | zero => simp
    | succ m =>
      cases n with
      | zero => omega
      | succ n => simp [List.set, ih n m (by omega)]

/-- The CRC validation of a frame whose trailing bytes differ from the computed CRC
`c`: the frame is rejected and both values are reported. -/
theorem rejected_of_trailer (frame_counter : Nat) (data : List Byte) (lo hi : Byte) (c : Nat)
    (h4 : 4 ≤ data.length)
    (hlo : data[data.length - 2]? = some lo) (hhi : data[data.length - 1]? = some hi)
    (hc : modbus_crc16 data (data.length - 2) = some c) (hne : lo.val + 256 * hi.val ≠ c) :
    ∃ out, modbus_frame_handler frame_counter data data.length =
        some ((frame_counter + 1) % 4294967296, out) ∧
      Out.crcMismatch ∈ out ∧ Out.crcStatus false ∈ out ∧
      Out.crcReceived (lo.val + 256 * hi.val) ∈ out ∧ Out.crcComputed c ∈ out := by
  have hcref := (crc_correct_iff data _ _ (by omega)).1 hc
  subst hcref
  obtain ⟨out, hout, hm, hr, hcomp, hst, -, -⟩ :=
    handler_rejected frame_counter data lo hi h4 hlo hhi hne
  exact ⟨out, hout, hm, hst, hr, hcomp⟩

/-- C6: for every frame of at least 4 bytes whose trailing CRC is correct, replacing
the low CRC byte or the high CRC byte by any different byte makes the handler reject the
frame with a CRC mismatch; the CRC over the first `len - 2` bytes is the one of the
uncorrupted frame, and it is the computed value that the rejection reports. -/
theorem corrupted_crc_rejected (frame_counter : Nat) (data : List Byte) (lo hi b : Byte)
    (h4 : 4 ≤ data.length)
    (hlo : data[data.length - 2]? = some lo) (hhi : data[data.length - 1]? = some hi)
    (hcrc : modbus_crc16 data (data.length - 2) = some (lo.val + 256 * hi.val)) :
    (b ≠ lo → ∃ out,
      modbus_frame_handler frame_counter (data.set (data.length - 2) b) data.length =
        some ((frame_counter + 1) % 4294967296, out) ∧
      modbus_crc16 (data.set (data.length - 2) b) (data.length - 2) =
        modbus_crc16 data (data.length - 2) ∧
      Out.crcMismatch ∈ out ∧ Out.crcStatus false ∈ out ∧
      Out.crcReceived (b.val + 256 * hi.val) ∈ out ∧
      Out.crcComputed (lo.val + 256 * hi.val) ∈ out) ∧
    (b ≠ hi → ∃ out,
      modbus_frame_handler frame_counter (data.set (data.length - 1) b) data.length =
        some ((frame_counter + 1) % 4294967296, out) ∧
      modbus_crc16 (data.set (data.length - 1) b) (data.length - 2) =
        modbus_crc16 data (data.length - 2) ∧
      Out.crcMismatch ∈ out ∧ Out.crcStatus false ∈ out ∧
      Out.crcReceived (lo.val + 256 * b.val) ∈ out ∧
      Out.crcComputed (lo.val + 256 * hi.val) ∈ out) := by
  have hsame : ∀ i, data.length - 2 ≤ i →
      modbus_crc16 (data.set i b) (data.length - 2) = modbus_crc16 data (data.length - 2) := by
    intro i hi
    rw [modbus_crc16_eq _ _ (by rw [List.length_set]; omega),
      modbus_crc16_eq _ _ (by omega), take_set_of_le data i _ b hi]
  constructor
  · intro hb
    have hne : b.val + 256 * hi.val ≠ lo.val + 256 * hi.val := fun h =>
      hb (Fin.ext (by omega))
    have hlen : (data.set (data.length - 2) b).length = data.length := List.length_set _ _ _
    have hlo' : (data.set (data.length - 2) b)[(data.set (data.length - 2) b).length - 2]? =
        some b := by
      rw [hlen, List.getElem?_set_self (by omega)]
    have hhi' : (data.set (data.length - 2) b)[(data.set (data.length - 2) b).length - 1]? =
        some hi := by
      rw [hlen, List.getElem?_set_ne (by omega), hhi]
    have hc' : modbus_crc16 (data.set (data.length - 2) b)
        ((data.set (data.length - 2) b).length - 2) = some (lo.val + 256 * hi.val) := by
      rw [hlen, hsame _ le_rfl, hcrc]
    obtain ⟨out, hout, hrest⟩ := rejected_of_trailer frame_counter _ b hi _
      (by rw [hlen]; exact h4) hlo' hhi' hc' hne
    rw [hlen] at hout
    exact ⟨out, hout, hsame _ le_rfl, hrest⟩
  · intro hb
    have hne : lo.val + 256 * b.val ≠ lo.val + 256 * hi.val := fun h =>
      hb (Fin.ext (by omega))
    have hlen : (data.set (data.length - 1) b).length = data.length := List.length_set _ _ _
    have hlo' : (data.set (data.length - 1) b)[(data.set (data.length - 1) b).length - 2]? =
        some lo := by
      rw [hlen, List.getElem?_set_ne (by omega), hlo]
    have hhi' : (data.set (data.length - 1) b)[(data.set (data.length - 1) b).length - 1]? =
        some b := by
      rw [hlen, List.getElem?_set_self (by omega)]
    have hc' : modbus_crc16 (data.set (data.length - 1) b)
        ((data.set (data.length - 1) b).length - 2) = some (lo.val + 256 * hi.val) := by
      rw [hlen, hsame _ (by omega), hcrc]
    obtain ⟨out, hout, hrest⟩ := rejected_of_trailer frame_counter _ lo b _
      (by rw [hlen]; exact h4) hlo' hhi' hc' hne
    rw [hlen] at hout
    exact ⟨out, hout, hsame _ (by omega), hrest⟩

/-- C6 at the Write Single Register frame `[0x01, 0x06, 0x00, 0x10, 0x00, 0x01, 0x49,
0xCF]` with the low CRC byte replaced by 0x4A. -/
theorem corrupted_crc_rejected_witness :
    4 ≤ ([0x01, 0x06, 0x00, 0x10, 0x00, 0x01, 0x49, 0xCF] : List Byte).length ∧
      modbus_crc16 [0x01, 0x06, 0x00, 0x10, 0x00, 0x01, 0x49, 0xCF] 6 = some 0xCF49 ∧
      ∃ out,
        modbus_frame_handler 0 [0x01, 0x06, 0x00, 0x10, 0x00, 0x01, 0x4A, 0xCF] 8 =
          some (1, out) ∧
        modbus_crc16 [0x01, 0x06, 0x00, 0x10, 0x00, 0x01, 0x4A, 0xCF] 6 =
          modbus_crc16 [0x01, 0x06, 0x00, 0x10, 0x00, 0x01, 0x49, 0xCF] 6 ∧
        Out.crcMismatch ∈ out ∧ Out.crcStatus false ∈ out ∧
        Out.crcReceived 0xCF4A ∈ out ∧ Out.crcComputed 0xCF49 ∈ out :=
  ⟨by decide, by decide,
    (corrupted_crc_rejected 0 [0x01, 0x06, 0x00, 0x10, 0x00, 0x01, 0x49, 0xCF] 0x49 0xCF 0x4A
      (by decide) (by decide) (by decide) (by decide)).1 (by decide)⟩

/-- C7: for every accepted frame (correct CRC, slave id 0x00 or 0x01) of at least 8
bytes, of any length, whose function code is one of 0x01 to 0x06, the two 16-bit fields
reported in the function data section are big-endian: the first is
`256 * data[2] + data[3]` and the second `256 * data[4] + data[5]`, both below 65536;
they are reported as starting address and number of coils (0x01, 0x02), starting address
and number of registers (0x03, 0x04), coil address and coil value (0x05), register
address and register value (0x06). -/
theorem fields_big_endian (frame_counter : Nat) (data : List Byte)
    (s f lo hi b2 b3 b4 b5 : Byte) (h8 : 8 ≤ data.length)
    (h0 : data[0]? = some s) (h1 : data[1]? = some f)
    (h2 : data[2]? = some b2) (h3 : data[3]? = some b3)
    (h4 : data[4]? = some b4) (h5 : data[5]? = some b5)
    (hlo : data[data.length - 2]? = some lo) (hhi : data[data.length - 1]? = some hi)
    (hcrc : modbus_crc16 data (data.length - 2) = some (lo.val + 256 * hi.val))
    (hs : s.val = 0x00 ∨ s.val = 0x01) (hf : 1 ≤ f.val ∧ f.val ≤ 6) :
    ∃ out, modbus_frame_handler frame_counter data data.length =
        some ((frame_counter + 1) % 4294967296, out) ∧
      fields (function_section out) =
        [256 * b2.val + b3.val, 256 * b4.val + b5.val] ∧
      256 * b2.val + b3.val < 65536 ∧ 256 * b4.val + b5.val < 65536 ∧
      (f.val = 0x01 ∨ f.val = 0x02 → function_section out =
        [Out.coilStartingAddress (256 * b2.val + b3.val),
          Out.numberOfCoils (256 * b4.val + b5.val)]) ∧
      (f.val = 0x03 ∨ f.val = 0x04 → function_section out =
        [Out.startingAddress (256 * b2.val + b3.val),
          Out.numberOfRegs (256 * b4.val + b5.val)]) ∧
      (f.val = 0x05 → ∃ state, function_section out =
        [Out.coilAddress (256 * b2.val + b3.val),
          Out.coilValue (256 * b4.val + b5.val) state]) ∧
      (f.val = 0x06 → (function_section out).take 2 =
        [Out.registerAddress (256 * b2.val + b3.val),
          Out.registerValue (256 * b4.val + b5.val)]) := by
  have heq := (crc_correct_iff data _ _ (by omega)).1 hcrc
  obtain ⟨out, fs, hout, hfs, hsec, -⟩ :=
    handler_accepted frame_counter data s f lo hi (by omega) h0 h1 hlo hhi heq
      (by unfold MODBUS_SLAVE_ID; omega)
  have hA := bytes_to_uint16_t_eq data 2 b2 b3 h2 h3
  have hV := bytes_to_uint16_t_eq data 4 b4 b5 h4 h5
  have hb2 := b2.isLt
  have hb3 := b3.isLt
  have hb4 := b4.isLt
  have hb5 := b5.isLt
  rw [← hsec] at hfs
  have h6 : f.val = 1 ∨ f.val = 2 ∨ f.val = 3 ∨ f.val = 4 ∨ f.val = 5 ∨ f.val = 6 := by omega
  rcases h6 with h | h | h | h | h | h
  · have hsw := Option.some.inj
      (hfs.symm.trans (function_switch_01_02 data _ f.val _ _ h8 (Or.inl h) hA hV))
    refine ⟨out, hout, ?_, by omega, by omega, ?_, ?_, ?_, ?_⟩ <;> simp [hsw, fields, h]
  · have hsw := Option.some.inj
      (hfs.symm.trans (function_switch_01_02 data _ f.val _ _ h8 (Or.inr h) hA hV))
    refine ⟨out, hout, ?_, by omega, by omega, ?_, ?_, ?_, ?_⟩ <;> simp [hsw, fields, h]
  · have hsw := Option.some.inj
      (hfs.symm.trans (function_switch_03_04 data _ f.val _ _ h8 (Or.inl h) hA hV))
    refine ⟨out, hout, ?_, by omega, by omega, ?_, ?_, ?_, ?_⟩ <;> simp [hsw, fields, h]
  · have hsw := Option.some.inj
      (hfs.symm.trans (function_switch_03_04 data _ f.val _ _ h8 (Or.inr h) hA hV))
    refine ⟨out, hout, ?_, by omega, by omega, ?_, ?_, ?_, ?_⟩ <;> simp [hsw, fields, h]
  · rw [h] at hfs
    have hsw := Option.some.inj (hfs.symm.trans (function_switch_05 data _ _ _ h8 hA hV))
    refine ⟨out, hout, ?_, by omega, by omega, ?_, ?_, ?_, ?_⟩ <;> simp [hsw, fields, h]
  · rw [h] at hfs
    have hsw := Option.some.inj (hfs.symm.trans (function_switch_06 data _ _ _ h8 hA hV))
    refine ⟨out, hout, ?_, by omega, by omega, ?_, ?_, ?_, ?_⟩
    · rw [hsw]
      split_ifs <;> simp [fields]
    · simp [h]
    · simp [h]
    · simp [h]
    · intro _
      rw [hsw]
      rfl

/-- C7 at the Read Holding Registers frame `[0x01, 0x03, 0x00, 0x6B, 0x00, 0x03, 0x74,
0x17]`: starting address 0x006B and 3 registers. -/
theorem fields_big_endian_witness :
    8 ≤ ([0x01, 0x03, 0x00, 0x6B, 0x00, 0x03, 0x74, 0x17] : List Byte).length ∧
      modbus_crc16 [0x01, 0x03, 0x00, 0x6B, 0x00, 0x03, 0x74, 0x17] 6 = some 0x1774 ∧
      ∃ out, modbus_frame_handler 0 [0x01, 0x03, 0x00, 0x6B, 0x00, 0x03, 0x74, 0x17] 8 =
          some (1, out) ∧
        fields (function_section out) = [0x006B, 0x0003] ∧
        function_section out = [Out.startingAddress 0x006B, Out.numberOfRegs 0x0003] :=
  ⟨by decide, by decide,
    match fields_big_endian 0 [0x01, 0x03, 0x00, 0x6B, 0x00, 0x03, 0x74, 0x17]
      0x01 0x03 0x74 0x17 0x00 0x6B 0x00 0x03 (by decide) (by decide) (by decide)
      (by decide) (by decide) (by decide) (by decide) (by decide) (by decide) (by decide)
      (by decide) (by decide) with
    | ⟨out, hout, hfields, _, _, _, h34, _, _⟩ => ⟨out, hout, hfields, h34 (Or.inl rfl)⟩⟩

/-- C8: for every buffer of `len` bytes, `len` from 0 on, and every content, the handler
returns: none of the reads of `modbus_frame_handler`, of `modbus_crc16` and of
`bytes_to_uint16_t` is at an index outside the `len` bytes, since in the embedding a read
at an index of `len` or more makes the result `none`. -/
theorem reads_in_bounds (frame_counter : Nat) (data : List Byte) :
    (modbus_frame_handler frame_counter data data.length).isSome = true := by
  by_cases h : data.length < 4
  · obtain ⟨out, hout, -⟩ := handler_too_short frame_counter data h
    rw [hout]
    rfl
  · have h4 : 4 ≤ data.length := by omega
    obtain ⟨pre, fs, -, -, -, -, hout⟩ := handler_stages frame_counter data
      data[0] data[1] data[data.length - 2] data[data.length - 1] h4
      (List.getElem?_eq_getElem (by omega)) (List.getElem?_eq_getElem (by omega))
      (List.getElem?_eq_getElem (by omega)) (List.getElem?_eq_getElem (by omega))
    rw [hout]
    rfl

theorem fields_cons (e : Out) (l : List Out) : fields (e :: l) = fields [e] ++ fields l := by
  cases e <;> simp [fields]

theorem fields_eq_nil (l : List Out) (h : ∀ e ∈ l, fields [e] = []) : fields l = [] := by
  induction l with
  | nil => rfl
  | cons e l ih =>
    rw [fields_cons, h e (List.mem_cons_self _ _),
      ih (fun x hx => h x (List.mem_cons_of_mem _ hx))]
    rfl

theorem fields_of_not_function (e : Out) (h : e.isFunction = false) : fields [e] = [] := by
  cases e <;> simp_all [fields, Out.isFunction]

theorem function_name_known (f : Nat) (hf : 1 ≤ f ∧ f ≤ 6) :
    get_function_name f ≠ "Unknown Function" := by
  have h6 : f = 1 ∨ f = 2 ∨ f = 3 ∨ f = 4 ∨ f = 5 ∨ f = 6 := by omega
  rcases h6 with h | h | h | h | h | h <;> subst h <;> decide

/-- C9 fails at the accepted 4-byte Read Holding Registers frame `[0x01, 0x03, 0x40,
0x21]`: the calls made are listed in full, the function data section is empty, so no
insufficient-payload marker is reported. -/
theorem insufficient_payload_marker_counterexample :
    modbus_frame_handler 0 [0x01, 0x03, 0x40, 0x21] 4 =
        some (1, [Out.newline, Out.borderTop, Out.frameNumber 1, Out.borderSep,
            Out.rawFrameHeader 4, Out.rowStart, Out.rawByte 0x01, Out.rawByte 0x03,
            Out.rawByte 0x40, Out.rawByte 0x21] ++ List.replicate 46 Out.space ++
          [Out.rowEnd, Out.borderSep, Out.frameAnalysis, Out.slaveId 0x01,
            Out.functionCode 0x03 "Read Holding Registers" 3, Out.crcCheck,
            Out.crcReceived 0x2140, Out.crcComputed 0x2140, Out.crcStatus true,
            Out.borderSep, Out.addressMatch, Out.borderSep, Out.functionData,
            Out.borderSep, Out.complete, Out.borderBottomBlank]) ∧
      ¬ ∃ counter out, modbus_frame_handler 0 [0x01, 0x03, 0x40, 0x21] 4 =
          some (counter, out) ∧ function_section out ≠ [] := by
  have hrun : modbus_frame_handler 0 [0x01, 0x03, 0x40, 0x21] 4 =
      some (1, [Out.newline, Out.borderTop, Out.frameNumber 1, Out.borderSep,
          Out.rawFrameHeader 4, Out.rowStart, Out.rawByte 0x01, Out.rawByte 0x03,
          Out.rawByte 0x40, Out.rawByte 0x21] ++ List.replicate 46 Out.space ++
        [Out.rowEnd, Out.borderSep, Out.frameAnalysis, Out.slaveId 0x01,
          Out.functionCode 0x03 "Read Holding Registers" 3, Out.crcCheck,
          Out.crcReceived 0x2140, Out.crcComputed 0x2140, Out.crcStatus true,
          Out.borderSep, Out.addressMatch, Out.borderSep, Out.functionData,
          Out.borderSep, Out.complete, Out.borderBottomBlank]) := by decide
  refine ⟨hrun, ?_⟩
  rintro ⟨counter, out, hout, hne⟩
  rw [hrun] at hout
  have hout' := congrArg Prod.snd (Option.some.inj hout)
  simp only at hout'
  rw [← hout'] at hne
  exact hne (by decide)

/-- C9 as amended: for every accepted frame (correct CRC, slave id 0x00 or 0x01) of 4
to 7 bytes whose function code is one of 0x01 to 0x06, the handler returns, the frame
analysis reports the function by its name, which is not Unknown Function, and the
function data section is empty: no field value and no other call is made between
`FUNCTION DATA:` and the closing lines. -/
theorem short_payload_reports_no_field (frame_counter : Nat) (data : List Byte)
    (s f lo hi : Byte) (h4 : 4 ≤ data.length) (h7 : data.length ≤ 7)
    (h0 : data[0]? = some s) (h1 : data[1]? = some f)
    (hlo : data[data.length - 2]? = some lo) (hhi : data[data.length - 1]? = some hi)
    (hcrc : modbus_crc16 data (data.length - 2) = some (lo.val + 256 * hi.val))
    (hs : s.val = 0x00 ∨ s.val = 0x01) (hf : 1 ≤ f.val ∧ f.val ≤ 6) :
    ∃ out, modbus_frame_handler frame_counter data data.length =
        some ((frame_counter + 1) % 4294967296, out) ∧
      Out.functionCode f.val (get_function_name f.val)
        (25 - ((get_function_name f.val).length : Int)) ∈ out ∧
      get_function_name f.val ≠ "Unknown Function" ∧
      Out.functionData ∈ out ∧
      function_section out = [] ∧
      fields out = [] ∧
      ∀ e ∈ out, e.isFunction = true → e = Out.functionData := by
  have heq := (crc_correct_iff data _ _ (by omega)).1 hcrc
  obtain ⟨out, fs, hout, hfs, hsec, -, -, -, hfd, -, hname, hfun⟩ :=
    handler_accepted frame_counter data s f lo hi h4 h0 h1 hlo hhi heq
      (by unfold MODBUS_SLAVE_ID; omega)
  have hnil : fs = [] :=
    Option.some.inj (hfs.symm.trans (function_switch_short data _ f.val (by omega) hf))
  subst hnil
  have honly : ∀ e ∈ out, e.isFunction = true → e = Out.functionData := by
    intro e he hfn
    rcases hfun e he hfn with h | h
    · exact h
    · simp at h
  refine ⟨out, hout, hname, function_name_known f.val hf, hfd, hsec, ?_, honly⟩
  apply fields_eq_nil
  intro e he
  by_cases hfn : e.isFunction = true
  · rw [honly e he hfn]
    rfl
  · exact fields_of_not_function e (by simpa using hfn)

/-- C9 as amended, at the accepted 4-byte Read Holding Registers frame `[0x01, 0x03,
0x40, 0x21]`. -/
theorem short_payload_reports_no_field_witness :
    4 ≤ ([0x01, 0x03, 0x40, 0x21] : List Byte).length ∧
      ([0x01, 0x03, 0x40, 0x21] : List Byte).length ≤ 7 ∧
      modbus_crc16 [0x01, 0x03, 0x40, 0x21] 2 = some 0x2140 ∧
      ∃ out, modbus_frame_handler 0 [0x01, 0x03, 0x40, 0x21] 4 = some (1, out) ∧
        Out.functionCode 0x03 "Read Holding Registers" 3 ∈ out ∧
        Out.functionData ∈ out ∧
        function_section out = [] ∧
        fields out = [] :=
  ⟨by decide, by decide, by decide,
    match short_payload_reports_no_field 0 [0x01, 0x03, 0x40, 0x21] 0x01 0x03 0x40 0x21
      (by decide) (by decide) (by decide) (by decide) (by decide) (by decide) (by decide)
      (by decide) (by decide) with
    | ⟨out, hout, hname, _, hfd, hsec, hfields, _⟩ => ⟨out, hout, hname, hfd, hsec, hfields⟩⟩

/-- C10 fails at the accepted Write Multiple Coils frame `[0x01, 0x0F, 0xAB, 0xCD, 0x8F,
0x7E]`: the function data section is the raw-byte dump of the two payload bytes. -/
theorem write_multiple_raw_dump_counterexample :
    ∃ out, modbus_frame_handler 0 [0x01, 0x0F, 0xAB, 0xCD, 0x8F, 0x7E] 6 = some (1, out) ∧
      Out.functionCode 0x0F "Write Multiple Coils" 5 ∈ out ∧
      function_section out =
        [Out.rawDataHeader, Out.rawDataRowStart, Out.rawDataByte 0xAB, Out.rawDataByte 0xCD,
          Out.rawDataRowEnd 30] ∧
      Out.rawDataHeader ∈ out ∧ Out.rawDataByte 0xAB ∈ out ∧ Out.rawDataByte 0xCD ∈ out := by
  refine ⟨_, rfl, ?_, ?_, ?_, ?_, ?_⟩ <;> decide

/-- C10 as amended: for every accepted frame (correct CRC, slave id 0x00 or 0x01) whose
function code is 0x0F or 0x10, the handler returns, the frame analysis reports the
function by its name, Write Multiple Coils or Write Multiple Registers, no field value
is extracted, and the function data section is the raw-byte dump of the default branch:
its header, the first `min (len - 4) 8` payload bytes in order, the ellipsis when
`len > 12`, and the end of the row; it is what the `switch` prints for every function
code outside 0x01 to 0x06, the unknown ones included. -/
theorem write_multiple_reported_by_raw_dump (frame_counter : Nat) (data : List Byte)
    (s f lo hi : Byte) (h4 : 4 ≤ data.length)
    (h0 : data[0]? = some s) (h1 : data[1]? = some f)
    (hlo : data[data.length - 2]? = some lo) (hhi : data[data.length - 1]? = some hi)
    (hcrc : modbus_crc16 data (data.length - 2) = some (lo.val + 256 * hi.val))
    (hs : s.val = 0x00 ∨ s.val = 0x01) (hf : f.val = 0x0F ∨ f.val = 0x10) :
    ∃ out, modbus_frame_handler frame_counter data data.length =
        some ((frame_counter + 1) % 4294967296, out) ∧
      Out.functionCode f.val (get_function_name f.val)
        (25 - ((get_function_name f.val).length : Int)) ∈ out ∧
      (f.val = 0x0F → get_function_name f.val = "Write Multiple Coils") ∧
      (f.val = 0x10 → get_function_name f.val = "Write Multiple Registers") ∧
      fields out = [] ∧
      function_section out =
        [Out.rawDataHeader, Out.rawDataRowStart] ++
          ((data.drop 2).take (min (data.length - 4) 8)).map
            (fun b => Out.rawDataByte b.val) ++
          (if data.length > 12 then [Out.ellipsis] else []) ++
          [Out.rawDataRowEnd (to_int (40 - ((data.length : Int) - 4) * 5))] ∧
      ∀ g, ¬ (1 ≤ g ∧ g ≤ 6) →
        function_switch data data.length g = some (function_section out) := by
  have heq := (crc_correct_iff data _ _ (by omega)).1 hcrc
  obtain ⟨out, fs, hout, hfs, hsec, -, -, -, -, -, hname, hfun⟩ :=
    handler_accepted frame_counter data s f lo hi h4 h0 h1 hlo hhi heq
      (by unfold MODBUS_SLAVE_ID; omega)
  have hk : min (data.length - 2) 10 - 2 = min (data.length - 4) 8 := by omega
  have hdef := function_switch_default data data.length f.val le_rfl (by omega)
  rw [hk] at hdef
  have hfs' := Option.some.inj (hfs.symm.trans hdef)
  refine ⟨out, hout, hname, ?_, ?_, ?_, ?_, ?_⟩
  · intro h
    rw [h]
    rfl
  · intro h
    rw [h]
    rfl
  · apply fields_eq_nil
    intro e he
    by_cases hfn : e.isFunction = true
    · rcases hfun e he hfn with h | h
      · rw [h]
        rfl
      · rw [hfs'] at h
        simp only [List.mem_append, List.mem_cons, List.mem_singleton, List.not_mem_nil,
          or_false, List.mem_map] at h
        rcases h with (((rfl | rfl) | ⟨b, -, rfl⟩) | h) | rfl
        · rfl
        · rfl
        · rfl
        · split at h
          · rw [List.mem_singleton.1 h]
            rfl
          · simp at h
        · rfl
    · exact fields_of_not_function e (by simpa using hfn)
  · rw [hsec, hfs']
  · intro g hg
    rw [hsec, hfs', function_switch_default data data.length g le_rfl hg, hk]

/-- C10 as amended, at the accepted Write Multiple Registers frame `[0x00, 0x10, 0x12,
0xFC, 0x0D]`, a broadcast with one payload byte. -/
theorem write_multiple_reported_by_raw_dump_witness :
    4 ≤ ([0x00, 0x10, 0x12, 0xFC, 0x0D] : List Byte).length ∧
      modbus_crc16 [0x00, 0x10, 0x12, 0xFC, 0x0D] 3 = some 0x0DFC ∧
      ∃ out, modbus_frame_handler 0 [0x00, 0x10, 0x12, 0xFC, 0x0D] 5 = some (1, out) ∧
        Out.functionCode 0x10 "Write Multiple Registers" 1 ∈ out ∧
        fields out = [] ∧
        function_section out =
          [Out.rawDataHeader, Out.rawDataRowStart, Out.rawDataByte 0x12,
            Out.rawDataRowEnd 35] :=
  ⟨by decide, by decide,
    match write_multiple_reported_by_raw_dump 0 [0x00, 0x10, 0x12, 0xFC, 0x0D]
      0x00 0x10 0xFC 0x0D (by decide) (by decide) (by decide) (by decide) (by decide)
      (by decide) (by decide) (by decide) with
    | ⟨out, hout, hname, _, _, hfields, hsec, _⟩ => ⟨out, hout, hname, hfields, hsec⟩⟩

theorem raw_data_bytes_append (l1 l2 : List Out) :
    raw_data_bytes (l1 ++ l2) = raw_data_bytes l1 ++ raw_data_bytes l2 := by
  induction l1 with
  | nil => rfl
  | cons e l ih => cases e <;> simp [raw_data_bytes, ih]

theorem raw_data_bytes_map (l : List Byte) :
    raw_data_bytes (l.map (fun b => Out.rawDataByte b.val)) = l.map (fun b => b.val) := by
  induction l with
  | nil => rfl
  | cons b l ih => simp [raw_data_bytes, ih]

theorem function_name_unknown (f : Nat) (hf : ¬ (1 ≤ f ∧ f ≤ 6)) (h15 : f ≠ 0x0F)
    (h16 : f ≠ 0x10) : get_function_name f = "Unknown Function" := by
  unfold get_function_name
  rw [if_neg (by omega), if_neg (by omega), if_neg (by omega), if_neg (by omega),
    if_neg (by omega), if_neg (by omega), if_neg h15, if_neg h16]

/-- C11: for every accepted frame (correct CRC, slave id 0x00 or 0x01) whose function
code is none of 0x01 to 0x06, 0x0F and 0x10, the handler returns, the function is named
Unknown Function, and the function data section is the raw-byte dump: the bytes dumped
are exactly the first `min n 8` bytes of the payload in order, `n = len - 4`, where the
payload is the bytes between the function code and the two CRC bytes; the `k`-th byte
dumped is `data[2 + k]` with `2 + k < len - 2`, so neither the function code nor a CRC
byte is dumped, and at most 8 bytes are. -/
theorem unknown_function_raw_dump (frame_counter : Nat) (data : List Byte)
    (s f lo hi : Byte) (h4 : 4 ≤ data.length)
    (h0 : data[0]? = some s) (h1 : data[1]? = some f)
    (hlo : data[data.length - 2]? = some lo) (hhi : data[data.length - 1]? = some hi)
    (hcrc : modbus_crc16 data (data.length - 2) = some (lo.val + 256 * hi.val))
    (hs : s.val = 0x00 ∨ s.val = 0x01)
    (hf : ¬ (1 ≤ f.val ∧ f.val ≤ 6)) (h15 : f.val ≠ 0x0F) (h16 : f.val ≠ 0x10) :
    ∃ out, modbus_frame_handler frame_counter data data.length =
        some ((frame_counter + 1) % 4294967296, out) ∧
      Out.functionCode f.val "Unknown Function" 9 ∈ out ∧
      function_section out =
        [Out.rawDataHeader, Out.rawDataRowStart] ++
          (((data.drop 2).take (data.length - 4)).take (min (data.length - 4) 8)).map
            (fun b => Out.rawDataByte b.val) ++
          (if data.length > 12 then [Out.ellipsis] else []) ++
          [Out.rawDataRowEnd (to_int (40 - ((data.length : Int) - 4) * 5))] ∧
      raw_data_bytes (function_section out) =
        (((data.drop 2).take (data.length - 4)).take (min (data.length - 4) 8)).map
          (fun b => b.val) ∧
      (raw_data_bytes (function_section out)).length = min (data.length - 4) 8 ∧
      (raw_data_bytes (function_section out)).length ≤ 8 ∧
      (∀ k, k < min (data.length - 4) 8 →
        (raw_data_bytes (function_section out))[k]? = (data[2 + k]?).map (fun b => b.val) ∧
          1 < 2 + k ∧ 2 + k < data.length - 2) ∧
      fields out = [] := by
  have heq := (crc_correct_iff data _ _ (by omega)).1 hcrc
  obtain ⟨out, fs, hout, hfs, hsec, -, -, -, -, -, hname, hfun⟩ :=
    handler_accepted frame_counter data s f lo hi h4 h0 h1 hlo hhi heq
      (by unfold MODBUS_SLAVE_ID; omega)
  have hk : min (data.length - 2) 10 - 2 = min (data.length - 4) 8 := by omega
  have hdef := function_switch_default data data.length f.val le_rfl hf
  have htake : ((data.drop 2).take (data.length - 4)).take (min (data.length - 4) 8) =
      (data.drop 2).take (min (data.length - 4) 8) := by
    rw [List.take_take]
    congr 1
    omega
  rw [hk, ← htake] at hdef
  have hfs' := Option.some.inj (hfs.symm.trans hdef)
  have hbytes : raw_data_bytes (function_section out) =
      (((data.drop 2).take (data.length - 4)).take (min (data.length - 4) 8)).map
        (fun b => b.val) := by
    rw [hsec, hfs', raw_data_bytes_append, raw_data_bytes_append, raw_data_bytes_append,
      raw_data_bytes_map]
    split <;> simp [raw_data_bytes]
  have hlen : (raw_data_bytes (function_section out)).length = min (data.length - 4) 8 := by
    rw [hbytes, htake]
    simp
    omega
  refine ⟨out, hout, ?_, ?_, hbytes, hlen, ?_, ?_, ?_⟩
  · rw [function_name_unknown f.val hf h15 h16] at hname
    exact hname
  · rw [hsec, hfs']
  · rw [hlen]
    omega
  · intro k hk8
    refine ⟨?_, by omega, by omega⟩
    rw [hbytes, htake, List.getElem?_map, List.getElem?_take_of_lt hk8, List.getElem?_drop]
  · apply fields_eq_nil
    intro e he
    by_cases hfn : e.isFunction = true
    · rcases hfun e he hfn with h | h
      · rw [h]
        rfl
      · rw [hfs'] at h
        simp only [List.mem_append, List.mem_cons, List.mem_singleton, List.not_mem_nil,
          or_false, List.mem_map] at h
        rcases h with (((rfl | rfl) | ⟨b, -, rfl⟩) | h) | rfl
        · rfl
        · rfl
        · rfl
        · split at h
          · rw [List.mem_singleton.1 h]
            rfl
          · simp at h
        · rfl
    · exact fields_of_not_function e (by simpa using hfn)

/-- C11 at the accepted frame `[0x01, 0x2B, 1, 2, ..., 10, 0xD4, 0xE1]` with the
unknown function code 0x2B and a payload of 10 bytes: the first 8 are dumped. -/
theorem unknown_function_raw_dump_witness :
    4 ≤ ([0x01, 0x2B, 1, 2, 3, 4, 5, 6, 7, 8, 9, 10, 0xD4, 0xE1] : List Byte).length ∧
      modbus_crc16 [0x01, 0x2B, 1, 2, 3, 4, 5, 6, 7, 8, 9, 10, 0xD4, 0xE1] 12 =
        some 0xE1D4 ∧
      ∃ out, modbus_frame_handler 0
          [0x01, 0x2B, 1, 2, 3, 4, 5, 6, 7, 8, 9, 10, 0xD4, 0xE1] 14 = some (1, out) ∧
        Out.functionCode 0x2B "Unknown Function" 9 ∈ out ∧
        raw_data_bytes (function_section out) = [1, 2, 3, 4, 5, 6, 7, 8] ∧
        fields out = [] :=
  ⟨by decide, by decide,
    match unknown_function_raw_dump 0
      [0x01, 0x2B, 1, 2, 3, 4, 5, 6, 7, 8, 9, 10, 0xD4, 0xE1] 0x01 0x2B 0xD4 0xE1
      (by decide) (by decide) (by decide) (by decide) (by decide) (by decide) (by decide)
      (by decide) (by decide) (by decide) with
    | ⟨out, hout, hname, _, hbytes, _, _, _, hfields⟩ => ⟨out, hout, hname, hbytes, hfields⟩⟩

/-- C12: for every accepted Write Single Coil frame (correct CRC, slave id 0x00 or 0x01,
function code 0x05, at least 8 bytes), the function data section is the coil address and
the coil value `v = 256 * data[4] + data[5]` with its state, and the state is `ON ` if
and only if `v = 0xFF00`, `OFF` if and only if `v = 0x0000`, and `???` if and only if
`v` is neither. -/
theorem write_single_coil_state (frame_counter : Nat) (data : List Byte)
    (s f lo hi b2 b3 b4 b5 : Byte) (h8 : 8 ≤ data.length)
    (h0 : data[0]? = some s) (h1 : data[1]? = some f)
    (h2 : data[2]? = some b2) (h3 : data[3]? = some b3)
    (h4 : data[4]? = some b4) (h5 : data[5]? = some b5)
    (hlo : data[data.length - 2]? = some lo) (hhi : data[data.length - 1]? = some hi)
    (hcrc : modbus_crc16 data (data.length - 2) = some (lo.val + 256 * hi.val))
    (hs : s.val = 0x00 ∨ s.val = 0x01) (hf : f.val = 0x05) :
    ∃ out state, modbus_frame_handler frame_counter data data.length =
        some ((frame_counter + 1) % 4294967296, out) ∧
      function_section out =
        [Out.coilAddress (256 * b2.val + b3.val),
          Out.coilValue (256 * b4.val + b5.val) state] ∧
      (state = "ON " ↔ 256 * b4.val + b5.val = 0xFF00) ∧
      (state = "OFF" ↔ 256 * b4.val + b5.val = 0x0000) ∧
      (state = "???" ↔ 256 * b4.val + b5.val ≠ 0xFF00 ∧ 256 * b4.val + b5.val ≠ 0x0000) := by
  have heq := (crc_correct_iff data _ _ (by omega)).1 hcrc
  obtain ⟨out, fs, hout, hfs, hsec, -⟩ :=
    handler_accepted frame_counter data s f lo hi (by omega) h0 h1 hlo hhi heq
      (by unfold MODBUS_SLAVE_ID; omega)
  have hA := bytes_to_uint16_t_eq data 2 b2 b3 h2 h3
  have hV := bytes_to_uint16_t_eq data 4 b4 b5 h4 h5
  rw [← hsec, hf] at hfs
  have hsw := Option.some.inj (hfs.symm.trans (function_switch_05 data _ _ _ h8 hA hV))
  refine ⟨out, _, hout, hsw, ?_, ?_, ?_⟩
  · split_ifs with hon hoff
    · exact ⟨fun _ => hon, fun _ => rfl⟩
    · exact ⟨fun h => absurd h (by decide), fun h => absurd h hon⟩
    · exact ⟨fun h => absurd h (by decide), fun h => absurd h hon⟩
  · split_ifs with hon hoff
    · exact ⟨fun h => absurd h (by decide), fun h => absurd (hon.symm.trans h) (by decide)⟩
    · exact ⟨fun _ => hoff, fun _ => rfl⟩
    · exact ⟨fun h => absurd h (by decide), fun h => absurd h hoff⟩
  · split_ifs with hon hoff
    · exact ⟨fun h => absurd h (by decide), fun h => absurd hon h.1⟩
    · exact ⟨fun h => absurd h (by decide), fun h => absurd hoff h.2⟩
    · exact ⟨fun _ => ⟨hon, hoff⟩, fun _ => rfl⟩

/-- C12 at the accepted Write Single Coil frame `[0x01, 0x05, 0x00, 0x13, 0xFF, 0x00,
0x7D, 0xFF]`: coil 0x0013 is switched on. -/
theorem write_single_coil_state_witness :
    8 ≤ ([0x01, 0x05, 0x00, 0x13, 0xFF, 0x00, 0x7D, 0xFF] : List Byte).length ∧
      modbus_crc16 [0x01, 0x05, 0x00, 0x13, 0xFF, 0x00, 0x7D, 0xFF] 6 = some 0xFF7D ∧
      ∃ out, modbus_frame_handler 0 [0x01, 0x05, 0x00, 0x13, 0xFF, 0x00, 0x7D, 0xFF] 8 =
          some (1, out) ∧
        function_section out = [Out.coilAddress 0x0013, Out.coilValue 0xFF00 "ON "] :=
  ⟨by decide, by decide,
    match write_single_coil_state 0 [0x01, 0x05, 0x00, 0x13, 0xFF, 0x00, 0x7D, 0xFF]
      0x01 0x05 0x7D 0xFF 0x00 0x13 0xFF 0x00 (by decide) (by decide) (by decide)
      (by decide) (by decide) (by decide) (by decide) (by decide) (by decide) (by decide)
      (by decide) (by decide) with
    | ⟨out, state, hout, hsec, hon, _, _⟩ =>
      ⟨out, hout, by rw [hsec, hon.2 (by decide)]; rfl⟩⟩

/-- C13: for every accepted Write Single Register frame (correct CRC, slave id 0x00 or
0x01, function code 0x06, at least 8 bytes), the function data section starts with the
register address and the register value `v = 256 * data[4] + data[5]`; the
interpretation OFF/DISABLE/FALSE is printed if and only if `v = 0x0000`, ON/ENABLE/TRUE
if and only if `v = 0x0001`, ALL BITS SET if and only if `v = 0xFFFF`, and for every
other value nothing follows the register value. -/
theorem write_single_register_interpretation (frame_counter : Nat) (data : List Byte)
    (s f lo hi b2 b3 b4 b5 : Byte) (h8 : 8 ≤ data.length)
    (h0 : data[0]? = some s) (h1 : data[1]? = some f)
    (h2 : data[2]? = some b2) (h3 : data[3]? = some b3)
    (h4 : data[4]? = some b4) (h5 : data[5]? = some b5)
    (hlo : data[data.length - 2]? = some lo) (hhi : data[data.length - 1]? = some hi)
    (hcrc : modbus_crc16 data (data.length - 2) = some (lo.val + 256 * hi.val))
    (hs : s.val = 0x00 ∨ s.val = 0x01) (hf : f.val = 0x06) :
    ∃ out, modbus_frame_handler frame_counter data data.length =
        some ((frame_counter + 1) % 4294967296, out) ∧
      (function_section out).take 2 =
        [Out.registerAddress (256 * b2.val + b3.val),
          Out.registerValue (256 * b4.val + b5.val)] ∧
      (function_section out).length ≤ 3 ∧
      (Out.interpretationOff ∈ function_section out ↔ 256 * b4.val + b5.val = 0x0000) ∧
      (Out.interpretationOn ∈ function_section out ↔ 256 * b4.val + b5.val = 0x0001) ∧
      (Out.interpretationAllBits ∈ function_section out ↔
        256 * b4.val + b5.val = 0xFFFF) ∧
      (256 * b4.val + b5.val ≠ 0x0000 → 256 * b4.val + b5.val ≠ 0x0001 →
        256 * b4.val + b5.val ≠ 0xFFFF →
        function_section out =
          [Out.registerAddress (256 * b2.val + b3.val),
            Out.registerValue (256 * b4.val + b5.val)]) := by
  have heq := (crc_correct_iff data _ _ (by omega)).1 hcrc
  obtain ⟨out, fs, hout, hfs, hsec, -⟩ :=
    handler_accepted frame_counter data s f lo hi (by omega) h0 h1 hlo hhi heq
      (by unfold MODBUS_SLAVE_ID; omega)
  have hA := bytes_to_uint16_t_eq data 2 b2 b3 h2 h3
  have hV := bytes_to_uint16_t_eq data 4 b4 b5 h4 h5
  rw [← hsec, hf] at hfs
  have hsw := Option.some.inj (hfs.symm.trans (function_switch_06 data _ _ _ h8 hA hV))
  refine ⟨out, hout, ?_⟩
  rw [hsw]
  split_ifs with h0000 h0001 hFFFF
  · simp [h0000]
  · simp [h0001]
  · simp [hFFFF]
  · simp [h0000, h0001, hFFFF]

/-- C13 at the accepted Write Single Register frame `[0x01, 0x06, 0x00, 0x10, 0xFF,
0xFF, 0x89, 0xBF]`: register value 0xFFFF. -/
theorem write_single_register_interpretation_witness :
    8 ≤ ([0x01, 0x06, 0x00, 0x10, 0xFF, 0xFF, 0x89, 0xBF] : List Byte).length ∧
      modbus_crc16 [0x01, 0x06, 0x00, 0x10, 0xFF, 0xFF, 0x89, 0xBF] 6 = some 0xBF89 ∧
      ∃ out, modbus_frame_handler 0 [0x01, 0x06, 0x00, 0x10, 0xFF, 0xFF, 0x89, 0xBF] 8 =
          some (1, out) ∧
        (function_section out).take 2 =
          [Out.registerAddress 0x0010, Out.registerValue 0xFFFF] ∧
        Out.interpretationAllBits ∈ function_section out :=
  ⟨by decide, by decide,
    match write_single_register_interpretation 0
      [0x01, 0x06, 0x00, 0x10, 0xFF, 0xFF, 0x89, 0xBF]
      0x01 0x06 0x89 0xBF 0x00 0x10 0xFF 0xFF (by decide) (by decide) (by decide)
      (by decide) (by decide) (by decide) (by decide) (by decide) (by decide) (by decide)
      (by decide) (by decide) with
    | ⟨out, hout, htake, _, _, _, hall, _⟩ => ⟨out, hout, htake, hall.2 (by decide)⟩⟩

/-- C15: `modbus_crc16` with length 0 returns 0xFFFF for every buffer, the empty buffer
included, on which every read fails: no byte is read. -/
theorem modbus_crc16_length_zero (data : List Byte) :
    modbus_crc16 data 0 = some 0xFFFF ∧ modbus_crc16 [] 0 = some 0xFFFF :=
  ⟨rfl, rfl⟩

theorem function_parsing_append (data : List Byte) (len f : Nat) (p q : List Out) :
    function_parsing data len f (p ++ q) =
      (function_parsing data len f q).map (fun r => p ++ r) := by
  unfold function_parsing
  cases function_switch data len f with
  | none => rfl
  | some fs => simp

theorem address_check_append (data : List Byte) (len s f : Nat) (p q : List Out) :
    address_check data len s f (p ++ q) =
      (address_check data len s f q).map (fun r => p ++ r) := by
  unfold address_check
  simp only [List.append_assoc]
  split_ifs
  · exact function_parsing_append data len f p _
  · exact function_parsing_append data len f p _
  · simp

theorem crc_validation_append (data : List Byte) (len s f : Nat) (p q : List Out) :
    crc_validation data len s f (p ++ q) =
      (crc_validation data len s f q).map (fun r => p ++ r) := by
  unfold crc_validation
  split_ifs with h4
  · cases data[len - 2]? with
    | none => rfl
    | some lo =>
      cases data[len - 1]? with
      | none => rfl
      | some hi =>
        cases modbus_crc16 data (len - 2) with
        | none => rfl
        | some computed =>
          simp only [List.append_assoc]
          split_ifs
          · simp
          · exact address_check_append data len s f p _
  · exact address_check_append data len s f p _

/-- The calls of the handler are the first two lines of the banner, the frame number,
and calls that do not depend on the frame counter. -/
theorem handler_label (data : List Byte) (len : Nat) :
    ∃ rest : Option (List Out), ∀ frame_counter,
      modbus_frame_handler frame_counter data len =
        rest.map (fun r => ((frame_counter + 1) % 4294967296,
          [Out.newline, Out.borderTop,
            Out.frameNumber ((frame_counter + 1) % 4294967296)] ++ r)) := by
  unfold modbus_frame_handler
  cases raw_frame_loop data len len 0 with
  | none => exact ⟨none, fun _ => rfl⟩
  | some dump =>
    by_cases h4 : len < 4
    · exact ⟨some ([Out.borderSep, Out.rawFrameHeader len, Out.rowStart] ++ dump ++
        List.replicate (padding len).toNat Out.space ++ [Out.rowEnd, Out.borderSep] ++
        [Out.tooShort, Out.borderBottom]), fun _ => by simp [h4]⟩
    · cases h0 : data[0]? with
      | none => exact ⟨none, fun _ => by simp [h4]⟩
      | some s =>
        cases h1 : data[1]? with
        | none => exact ⟨none, fun _ => by simp [h4]⟩
        | some f =>
          refine ⟨crc_validation data len s.val f.val
            ([Out.borderSep, Out.rawFrameHeader len, Out.rowStart] ++ dump ++
              List.replicate (padding len).toNat Out.space ++ [Out.rowEnd, Out.borderSep] ++
              [Out.frameAnalysis, Out.slaveId s.val,
                Out.functionCode f.val (get_function_name f.val)
                  (25 - ((get_function_name f.val).length : Int))]), fun c => ?_⟩
          have happ := crc_validation_append data len s.val f.val
            [Out.newline, Out.borderTop, Out.frameNumber ((c + 1) % 4294967296)]
            ([Out.borderSep, Out.rawFrameHeader len, Out.rowStart] ++ dump ++
              List.replicate (padding len).toNat Out.space ++ [Out.rowEnd, Out.borderSep] ++
              [Out.frameAnalysis, Out.slaveId s.val,
                Out.functionCode f.val (get_function_name f.val)
                  (25 - ((get_function_name f.val).length : Int))])
          simp only [List.cons_append, List.nil_append, List.append_assoc] at happ ⊢
          simp only [h4, if_false]
          rw [happ]
          cases crc_validation data len s.val f.val _ <;> rfl

theorem handler_isSome (frame_counter : Nat) (data : List Byte) :
    (modbus_frame_handler frame_counter data data.length).isSome = true := by
  by_cases h : data.length < 4
  · obtain ⟨out, hout, -⟩ := handler_too_short frame_counter data h
    rw [hout]
    rfl
  · have h4 : 4 ≤ data.length := by omega
    obtain ⟨pre, fs, -, -, -, -, hout⟩ := handler_stages frame_counter data
      data[0] data[1] data[data.length - 2] data[data.length - 1] h4
      (List.getElem?_eq_getElem (by omega)) (List.getElem?_eq_getElem (by omega))
      (List.getElem?_eq_getElem (by omega)) (List.getElem?_eq_getElem (by omega))
    rw [hout]
    rfl

/-- On a buffer of `len` bytes the handler returns, and what it prints after the frame
number does not depend on the frame counter. -/
theorem handler_label_some (data : List Byte) :
    ∃ rest : List Out, ∀ frame_counter,
      modbus_frame_handler frame_counter data data.length =
        some ((frame_counter + 1) % 4294967296,
          [Out.newline, Out.borderTop,
            Out.frameNumber ((frame_counter + 1) % 4294967296)] ++ rest) := by
  obtain ⟨rest, hrest⟩ := handler_label data data.length
  cases rest with
  | none =>
    have h := handler_isSome 0 data
    rw [hrest 0] at h
    exact absurd h (by decide)
  | some r => exact ⟨r, fun c => hrest c⟩

/-- C16 fails at the counter value 0xFFFFFFFF: `frame_counter` is a `uint32_t`, the
increment wraps, and the counter after the call is 0, which is neither the counter
before plus one nor greater than it. -/
theorem frame_counter_wraps_counterexample :
    ∃ out, modbus_frame_handler 0xFFFFFFFF [0x01, 0x03, 0x40, 0x21] 4 = some (0, out) ∧
      Out.frameNumber 0 ∈ out ∧
      (0 : Nat) ≠ 0xFFFFFFFF + 1 ∧ ¬ ((0xFFFFFFFF : Nat) < 0) := by
  refine ⟨_, rfl, ?_, ?_, ?_⟩ <;> decide

/-- C16 as amended: `frame_counter` is a 32-bit unsigned integer and every invocation
increments it exactly once; for every counter value and every input frame the handler
returns, on every path, with the new counter, which is also the frame number printed;
below 0xFFFFFFFF the new counter is the old one plus one and strictly greater, and at
0xFFFFFFFF it wraps to 0. -/
theorem frame_counter_incremented (frame_counter : Nat) (data : List Byte)
    (h : frame_counter ≤ 0xFFFFFFFF) :
    ∃ counter out, modbus_frame_handler frame_counter data data.length =
        some (counter, out) ∧
      out.take 3 = [Out.newline, Out.borderTop, Out.frameNumber counter] ∧
      (frame_counter < 0xFFFFFFFF → counter = frame_counter + 1 ∧ frame_counter < counter) ∧
      (frame_counter = 0xFFFFFFFF → counter = 0) := by
  obtain ⟨rest, hrest⟩ := handler_label_some data
  refine ⟨_, _, hrest frame_counter, rfl, ?_, ?_⟩
  · intro hlt
    have hm : (frame_counter + 1) % 4294967296 = frame_counter + 1 :=
      Nat.mod_eq_of_lt (by omega)
    rw [hm]
    exact ⟨rfl, Nat.lt_succ_self _⟩
  · intro heq
    rw [heq]

/-- C16 as amended, at counter value 41 and a CRC-mismatch frame. -/
theorem frame_counter_incremented_witness :
    (41 : Nat) ≤ 0xFFFFFFFF ∧
      ∃ out, modbus_frame_handler 41 [0x01, 0x03, 0x00, 0x00] 4 = some (42, out) ∧
        out.take 3 = [Out.newline, Out.borderTop, Out.frameNumber 42] :=
  ⟨by decide,
    match frame_counter_incremented 41 [0x01, 0x03, 0x00, 0x00] (by decide) with
    | ⟨counter, out, hout, htake, hlt, _⟩ => by
      have hc : counter = 42 := (hlt (by decide)).1
      subst hc
      exact ⟨out, hout, htake⟩⟩

/-- C17: for every input frame and every two counter values the handler returns and
makes the same calls, apart from the frame number: the calls are the first two lines of
the banner, the frame number, and then one and the same list `rest`, which holds the raw
dump and the too-short error, the CRC report with the received and computed values and
the rejection, the address classification, and the function data section. -/
theorem frame_counter_does_not_influence_decoding (counter1 counter2 : Nat)
    (data : List Byte) :
    ∃ rest,
      modbus_frame_handler counter1 data data.length =
        some ((counter1 + 1) % 4294967296,
          [Out.newline, Out.borderTop, Out.frameNumber ((counter1 + 1) % 4294967296)] ++
            rest) ∧
      modbus_frame_handler counter2 data data.length =
        some ((counter2 + 1) % 4294967296,
          [Out.newline, Out.borderTop, Out.frameNumber ((counter2 + 1) % 4294967296)] ++
            rest) := by
  obtain ⟨rest, hrest⟩ := handler_label_some data
  exact ⟨rest, hrest counter1, hrest counter2⟩

/-! ## The CRC as a bijection of the register -/

theorem reference_round_lt (r : Nat) (h : r < 65536) : reference_round r < 65536 := by
  rw [← crc_bit_eq_reference r h]
  exact crc_bit_lt r

theorem reference_round_inj (r r' : Nat) (hr : r < 65536) (hr' : r' < 65536)
    (h : reference_round r = reference_round r') : r = r' := by
  have hbit : ∀ x, x < 65536 → (Nat.xor (x / 2) 0xA001).testBit 15 = true := by
    intro x hx
    have hf : (x / 2).testBit 15 = false := Nat.testBit_lt_two_pow (by omega)
    show ((x / 2) ^^^ 0xA001).testBit 15 = true
    rw [Nat.testBit_xor, hf]
    decide
  have hlow : ∀ x, x < 65536 → (x / 2).testBit 15 = false := fun x hx =>
    Nat.testBit_lt_two_pow (by omega)
  unfold reference_round at h
  by_cases hp : r % 2 = 1 <;> by_cases hp' : r' % 2 = 1
  · rw [if_pos hp, if_pos hp'] at h
    have h2 : r / 2 = r' / 2 := Nat.xor_left_inj.1 h
    omega
  · rw [if_pos hp, if_neg hp'] at h
    have := hbit r hr
    rw [h, hlow r' hr'] at this
    exact absurd this (by decide)
  · rw [if_neg hp, if_pos hp'] at h
    have := hbit r' hr'
    rw [← h, hlow r hr] at this
    exact absurd this (by decide)
  · rw [if_neg hp, if_neg hp'] at h
    omega

theorem reference_rounds_lt (n r : Nat) (h : r < 65536) : reference_round^[n] r < 65536 := by
  induction n generalizing r with
  | zero => exact h
  | succ n ih => exact ih _ (reference_round_lt r h)

theorem reference_rounds_inj (n r r' : Nat) (hr : r < 65536) (hr' : r' < 65536)
    (h : reference_round^[n] r = reference_round^[n] r') : r = r' := by
  induction n generalizing r r' with
  | zero => exact h
  | succ n ih =>
    exact reference_round_inj r r' hr hr'
      (ih _ _ (reference_round_lt r hr) (reference_round_lt r' hr') h)

/-- The update of the register by one byte is 8 rounds on the register XOR the byte. -/
theorem reference_byte_eq (r : Nat) (b : Byte) :
    reference_byte r b = reference_round^[8] (r ^^^ b.val) := by
  rw [xor_low_byte r b.val b.isLt]
  rfl

theorem reference_byte_inj (r r' : Nat) (b b' : Byte) (hr : r < 65536) (hr' : r' < 65536)
    (h : reference_byte r b = reference_byte r' b') : r ^^^ b.val = r' ^^^ b'.val := by
  rw [reference_byte_eq, reference_byte_eq] at h
  have hx : ∀ (x : Nat) (c : Byte), x < 65536 → x ^^^ c.val < 65536 := fun x c hx =>
    Nat.xor_lt_two_pow (n := 16) hx (lt_trans c.isLt (by norm_num))
  exact reference_rounds_inj 8 _ _ (hx r b hr) (hx r' b' hr') h

theorem reference_foldl_ne (post : List Byte) (r r' : Nat) (hr : r < 65536)
    (hr' : r' < 65536) (hne : r ≠ r') :
    post.foldl reference_byte r ≠ post.foldl reference_byte r' := by
  induction post generalizing r r' with
  | nil => exact hne
  | cons b post ih =>
    apply ih _ _ (reference_byte_lt r b hr) (reference_byte_lt r' b hr')
    intro h
    exact hne (Nat.xor_left_inj.1 (reference_byte_inj r r' b b hr hr' h))

/-- Replacing one byte of a sequence by a different byte changes the reference CRC. -/
theorem reference_crc16_set_ne (data : List Byte) (i : Nat) (b b' : Byte)
    (hb : data[i]? = some b) (hne : b' ≠ b) :
    reference_crc16 (data.set i b') ≠ reference_crc16 data := by
  have hi : i < data.length := by
    rcases Nat.lt_or_ge i data.length with h | h
    · exact h
    · rw [List.getElem?_eq_none h] at hb
      exact absurd hb (by simp)
  have hbi : data[i] = b := by
    rw [List.getElem?_eq_getElem hi] at hb
    exact Option.some.inj hb
  have hdata : data = data.take i ++ b :: data.drop (i + 1) := by
    rw [← hbi, ← List.drop_eq_getElem_cons hi, List.take_append_drop]
  have hset : data.set i b' = data.take i ++ b' :: data.drop (i + 1) :=
    List.set_eq_take_append_cons_drop.trans (by rw [if_pos hi])
  rw [hset]
  conv_rhs => rw [hdata]
  unfold reference_crc16
  rw [List.foldl_append, List.foldl_append, List.foldl_cons, List.foldl_cons]
  have h0 := reference_foldl_lt (data.take i) 0xFFFF (by norm_num)
  apply reference_foldl_ne _ _ _ (reference_byte_lt _ b' h0) (reference_byte_lt _ b h0)
  intro h
  exact hne (Fin.ext (Nat.xor_right_inj.1 (reference_byte_inj _ _ b' b h0 h0 h)))

theorem flip_bit_ne (b : Byte) (k : Nat) (hk : k < 8) : flip_bit b k ≠ b := by
  intro h
  have hv : (b.val ^^^ (1 <<< k)) % 256 = b.val := congrArg Fin.val h
  have hpow : (1 : Nat) <<< k = 2 ^ k := by rw [Nat.shiftLeft_eq, Nat.one_mul]
  have hlt : (2 : Nat) ^ k < 2 ^ 8 := Nat.pow_lt_pow_right (by norm_num) hk
  have hx : b.val ^^^ 2 ^ k < 2 ^ 8 := Nat.xor_lt_two_pow b.isLt hlt
  have hx' : b.val ^^^ 2 ^ k < 256 := hx
  rw [hpow, Nat.mod_eq_of_lt hx'] at hv
  have h0 : (2 : Nat) ^ k = 0 := Nat.xor_right_inj.1 (hv.trans (Nat.xor_zero _).symm)
  exact absurd h0 (by positivity)

/-- C14: for every non-empty byte sequence, every index `i` in it and every bit position
`k` from 0 to 7, `modbus_crc16` over the whole sequence returns for the sequence and for
the sequence with bit `k` of byte `i` flipped, and the two values differ. -/
theorem crc_single_bit_sensitivity (data : List Byte) (i k : Nat) (b : Byte)
    (hb : data[i]? = some b) (hk : k < 8) :
    ∃ crc flipped, modbus_crc16 data data.length = some crc ∧
      modbus_crc16 (data.set i (flip_bit b k)) data.length = some flipped ∧
      flipped ≠ crc := by
  have h1 := modbus_crc16_eq data data.length le_rfl
  have h2 := modbus_crc16_eq (data.set i (flip_bit b k)) data.length
    (by rw [List.length_set])
  rw [List.take_length] at h1
  rw [← List.length_set data i (flip_bit b k), List.take_length, List.length_set] at h2
  exact ⟨_, _, h1, h2, reference_crc16_set_ne data i b (flip_bit b k) hb (flip_bit_ne b k hk)⟩

/-- C14 at the Write Single Register frame body `[0x01, 0x06, 0x00, 0x10, 0x00, 0x01]`
with bit 7 of byte 3 flipped, 0x10 to 0x90. -/
theorem crc_single_bit_sensitivity_witness :
    ([0x01, 0x06, 0x00, 0x10, 0x00, 0x01] : List Byte)[3]? = some 0x10 ∧ 7 < 8 ∧
      flip_bit 0x10 7 = 0x90 ∧
      ∃ crc flipped,
        modbus_crc16 [0x01, 0x06, 0x00, 0x10, 0x00, 0x01] 6 = some crc ∧
        modbus_crc16 [0x01, 0x06, 0x00, 0x90, 0x00, 0x01] 6 = some flipped ∧
        flipped ≠ crc :=
  ⟨by decide, by decide, by decide,
    crc_single_bit_sensitivity [0x01, 0x06, 0x00, 0x10, 0x00, 0x01] 3 7 0x10
      (by decide) (by decide)⟩

/-! ## The CRC residue -/

theorem reference_round_double (y : Nat) : reference_round (2 * y) = y := by
  unfold reference_round
  rw [if_neg (by omega)]
  omega

theorem reference_rounds_high (h : Nat) : reference_round^[8] (256 * h) = h := by
  have h256 : 256 * h = 2 * (2 * (2 * (2 * (2 * (2 * (2 * (2 * h))))))) := by omega
  rw [h256]
  simp only [Function.iterate_succ, Function.iterate_zero, Function.comp_apply, id_eq,
    reference_round_double]

/-- The low CRC byte zeroes the low byte of the register, and the 8 rounds move the high
byte down. -/
theorem reference_byte_lo (r : Nat) : reference_byte r (lo_byte r) = r / 256 := by
  have hx : 256 * (r / 256) + Nat.xor (r % 256) (lo_byte r).val = 256 * (r / 256) := by
    show 256 * (r / 256) + ((r % 256) ^^^ (r % 256)) = 256 * (r / 256)
    rw [Nat.xor_self]
    rfl
  show reference_round^[8] (256 * (r / 256) + Nat.xor (r % 256) (lo_byte r).val) = r / 256
  rw [hx, reference_rounds_high]

theorem reference_byte_hi (r : Nat) (h : r < 65536) :
    reference_byte (r / 256) (hi_byte r) = 0 := by
  have hv : (hi_byte r).val = r / 256 := by
    show r / 256 % 256 = r / 256
    omega
  rw [reference_byte_eq, hv, Nat.xor_self]
  rfl

theorem reference_crc16_residue (m : List Byte) :
    reference_crc16 (m ++ [lo_byte (reference_crc16 m), hi_byte (reference_crc16 m)]) = 0 := by
  have hlt := reference_crc16_lt m
  unfold reference_crc16 at *
  rw [List.foldl_append, List.foldl_cons, List.foldl_cons, List.foldl_nil,
    reference_byte_lo, reference_byte_hi _ hlt]

/-- A register from which two bytes lead to 0 has these two bytes as its low and high
byte. -/
theorem reference_residue_inv (c : Nat) (lo hi : Byte) (hc : c < 65536)
    (h : reference_byte (reference_byte c lo) hi = 0) : lo.val + 256 * hi.val = c := by
  have hs1 := reference_byte_lt c lo hc
  have hz : reference_byte 0 (0 : Byte) = 0 := rfl
  have h1 := reference_byte_inj _ 0 hi 0 hs1 (by norm_num) (h.trans hz.symm)
  have h1' : reference_byte c lo = hi.val := by
    have : reference_byte c lo ^^^ hi.val = 0 := h1
    exact Nat.xor_eq_zero.1 this
  have hhi := hi.isLt
  have h2 : reference_byte (256 * hi.val) (0 : Byte) = hi.val := by
    rw [reference_byte_eq]
    show reference_round^[8] (256 * hi.val ^^^ 0) = hi.val
    rw [Nat.xor_zero, reference_rounds_high]
  have h3 := reference_byte_inj c (256 * hi.val) lo 0 hc (by omega) (h1'.trans h2.symm)
  have h3' : c ^^^ lo.val = 256 * hi.val := by
    have : c ^^^ lo.val = 256 * hi.val ^^^ 0 := h3
    rwa [Nat.xor_zero] at this
  rw [xor_low_byte c lo.val lo.isLt] at h3'
  have hxl : (c % 256) ^^^ lo.val < 2 ^ 8 :=
    Nat.xor_lt_two_pow (Nat.mod_lt _ (by norm_num)) lo.isLt
  have hx0 : (c % 256) ^^^ lo.val = 0 := by
    have hxl' : (c % 256) ^^^ lo.val < 256 := hxl
    omega
  have hlo : c % 256 = lo.val := Nat.xor_eq_zero.1 hx0
  rw [hx0] at h3'
  omega

theorem drop_trailer (data : List Byte) (lo hi : Byte) (h2 : 2 ≤ data.length)
    (hlo : data[data.length - 2]? = some lo) (hhi : data[data.length - 1]? = some hi) :
    data = data.take (data.length - 2) ++ [lo, hi] := by
  have hi2 : data.length - 2 < data.length := by omega
  have hi1 : data.length - 2 + 1 < data.length := by omega
  have e1 : data.length - 2 + 1 = data.length - 1 := by omega
  have hd : data.drop (data.length - 2) = [lo, hi] := by
    rw [List.drop_eq_getElem_cons hi2, List.drop_eq_getElem_cons hi1]
    rw [List.getElem?_eq_getElem hi2] at hlo
    rw [← e1, List.getElem?_eq_getElem hi1] at hhi
    rw [Option.some.inj hlo, Option.some.inj hhi,
      List.drop_eq_nil_of_le (by omega)]
  conv_lhs => rw [← List.take_append_drop (data.length - 2) data, hd]

/-- The trailing two bytes of a frame are the CRC of the bytes before them, low byte
first, if and only if the reference CRC of the whole frame is 0. -/
theorem trailer_correct_iff (data : List Byte) (lo hi : Byte) (h2 : 2 ≤ data.length)
    (hlo : data[data.length - 2]? = some lo) (hhi : data[data.length - 1]? = some hi) :
    lo.val + 256 * hi.val = reference_crc16 (data.take (data.length - 2)) ↔
      reference_crc16 data = 0 := by
  have hdata := drop_trailer data lo hi h2 hlo hhi
  have hlt := reference_crc16_lt (data.take (data.length - 2))
  constructor
  · intro heq
    have hl : lo = lo_byte (reference_crc16 (data.take (data.length - 2))) :=
      Fin.ext (by show lo.val = _ % 256; omega)
    have hh : hi = hi_byte (reference_crc16 (data.take (data.length - 2))) :=
      Fin.ext (by show hi.val = _ / 256 % 256; omega)
    rw [hdata, hl, hh]
    exact reference_crc16_residue _
  · intro hz
    rw [hdata] at hz
    unfold reference_crc16 at hz
    rw [List.foldl_append, List.foldl_cons, List.foldl_cons, List.foldl_nil] at hz
    exact reference_residue_inv _ lo hi hlt hz

/-- C18: for every byte sequence `m`, the empty one included, `modbus_crc16` returns a
value `c` on `m` and returns 0 on `m` followed by the two bytes `c mod 256` and
`c div 256`; and for every frame of at least 4 bytes with trailing bytes `lo` and `hi`,
the trailer `lo + 256 * hi` equals the CRC computed over the first `len - 2` bytes, that
is, the handler does not reject the frame with a CRC mismatch, if and only if
`modbus_crc16` over the whole frame, trailer included, is 0. -/
theorem crc_residue (m : List Byte) (frame_counter : Nat) (data : List Byte) (lo hi : Byte)
    (h4 : 4 ≤ data.length)
    (hlo : data[data.length - 2]? = some lo) (hhi : data[data.length - 1]? = some hi) :
    (∃ c, modbus_crc16 m m.length = some c ∧
      modbus_crc16 (m ++ [lo_byte c, hi_byte c]) (m.length + 2) = some 0) ∧
    ∃ out computed,
      modbus_frame_handler frame_counter data data.length =
        some ((frame_counter + 1) % 4294967296, out) ∧
      modbus_crc16 data (data.length - 2) = some computed ∧
      (lo.val + 256 * hi.val = computed ↔ modbus_crc16 data data.length = some 0) ∧
      (Out.crcMismatch ∉ out ↔ modbus_crc16 data data.length = some 0) := by
  constructor
  · refine ⟨reference_crc16 m, ?_, ?_⟩
    · have := modbus_crc16_eq m m.length le_rfl
      rwa [List.take_length] at this
    · have := modbus_crc16_eq
        (m ++ [lo_byte (reference_crc16 m), hi_byte (reference_crc16 m)]) (m.length + 2)
        (by simp)
      rw [this]
      have ht : List.take (m.length + 2)
          (m ++ [lo_byte (reference_crc16 m), hi_byte (reference_crc16 m)]) =
          m ++ [lo_byte (reference_crc16 m), hi_byte (reference_crc16 m)] :=
        List.take_of_length_le (by simp)
      rw [ht, reference_crc16_residue]
  · have hcrc := modbus_crc16_eq data (data.length - 2) (by omega)
    have hwhole := modbus_crc16_eq data data.length le_rfl
    rw [List.take_length] at hwhole
    have hiff := trailer_correct_iff data lo hi (by omega) hlo hhi
    have hzero : modbus_crc16 data data.length = some 0 ↔ reference_crc16 data = 0 := by
      rw [hwhole]
      exact ⟨fun h => Option.some.inj h, fun h => by rw [h]⟩
    have h0 : data[0]? = some data[0] := List.getElem?_eq_getElem (by omega)
    have h1 : data[1]? = some data[1] := List.getElem?_eq_getElem (by omega)
    by_cases heq : lo.val + 256 * hi.val = reference_crc16 (data.take (data.length - 2))
    · have hz : modbus_crc16 data data.length = some 0 := hzero.2 (hiff.1 heq)
      by_cases hs : (data[0]).val = MODBUS_SLAVE_ID ∨ (data[0]).val = 0x00
      · obtain ⟨out, fs, hout, -, -, hm, -⟩ :=
          handler_accepted frame_counter data _ _ lo hi h4 h0 h1 hlo hhi heq hs
        exact ⟨out, _, hout, hcrc, ⟨fun _ => hz, fun _ => heq⟩, ⟨fun _ => hz, fun _ => hm⟩⟩
      · obtain ⟨out, hout, hm, -⟩ :=
          handler_filtered frame_counter data _ lo hi h4 h0 hlo hhi heq hs
        exact ⟨out, _, hout, hcrc, ⟨fun _ => hz, fun _ => heq⟩, ⟨fun _ => hz, fun _ => hm⟩⟩
    · have hnz : ¬ modbus_crc16 data data.length = some 0 := fun h =>
        heq (hiff.2 (hzero.1 h))
      obtain ⟨out, hout, hm, -⟩ :=
        handler_rejected frame_counter data lo hi h4 hlo hhi heq
      exact ⟨out, _, hout, hcrc, ⟨fun h => absurd h heq, fun h => absurd h hnz⟩,
        ⟨fun h => absurd hm h, fun h => absurd h hnz⟩⟩

/-- C18 at the body `[0x01, 0x06, 0x00, 0x10, 0x00, 0x01]`, whose CRC is 0xCF49, and at
the frame `[0x01, 0x06, 0x00, 0x10, 0x00, 0x01, 0x49, 0xCF]`. -/
theorem crc_residue_witness :
    4 ≤ ([0x01, 0x06, 0x00, 0x10, 0x00, 0x01, 0x49, 0xCF] : List Byte).length ∧
      modbus_crc16 [0x01, 0x06, 0x00, 0x10, 0x00, 0x01, 0x49, 0xCF] 8 = some 0 ∧
      (∃ c, modbus_crc16 [0x01, 0x06, 0x00, 0x10, 0x00, 0x01] 6 = some c ∧
        modbus_crc16 ([0x01, 0x06, 0x00, 0x10, 0x00, 0x01] ++ [lo_byte c, hi_byte c]) 8 =
          some 0) ∧
      ∃ out computed,
        modbus_frame_handler 0 [0x01, 0x06, 0x00, 0x10, 0x00, 0x01, 0x49, 0xCF] 8 =
          some (1, out) ∧
        modbus_crc16 [0x01, 0x06, 0x00, 0x10, 0x00, 0x01, 0x49, 0xCF] 6 = some computed ∧
        (0x49 + 256 * 0xCF = computed ↔
          modbus_crc16 [0x01, 0x06, 0x00, 0x10, 0x00, 0x01, 0x49, 0xCF] 8 = some 0) ∧
        (Out.crcMismatch ∉ out ↔
          modbus_crc16 [0x01, 0x06, 0x00, 0x10, 0x00, 0x01, 0x49, 0xCF] 8 = some 0) :=
  ⟨by decide, by decide,
    crc_residue [0x01, 0x06, 0x00, 0x10, 0x00, 0x01] 0
      [0x01, 0x06, 0x00, 0x10, 0x00, 0x01, 0x49, 0xCF] 0x49 0xCF
      (by decide) (by decide) (by decide)⟩

end Modbus
